import Mathlib

/-!
Verification of the M30 raw-to-depth pipeline (cobra_raw2depth).

This file shallowly embeds the C++ code of the repository in Lean:
the GCF lookup (`GPixel::getGcf`), timestamp adjustment
(`RtdMetadata::adjustTimestamp`), the tap-rotation DSP kernel
(`RawToDepthDsp::tapRotation`), the nearest-neighbor outlier filter
(`NearestNeighbor::removeOutliers`), range conversion and masking
(`RawToDepthCommon::getRange` and the tail of
`RawToDepthV2_float::localProcessFrame`), per-ROI metadata validation
(`RawToDepth::validateMetadata`), the mid-FOV state machine
(`RawToDepth(V2_float)::saveTimestamp` and the publish decision of
`localProcessFrame`), the TCP framing header
(`TCPWrappedStreamer::NetworkSend`), and the float-vector pool
(`FloatVectorPool`).

Conventions:
* C++ `float`/`double` values are embedded as exact rationals `ℚ`,
  reading each written decimal constant exactly. `roundf` on the
  non-negative values that occur here is "round half away from zero",
  embedded as `natRoundQ`.
* machine integers are embedded as `ℕ`/`ℤ`; masks, shifts and `% 2^w`
  are written out where the C++ truncates, and a cast whose operand
  provably fits its target is dropped. Bitwise accesses into disjoint
  fields are written with `/`, `%` and `*` by powers of two.
* image buffers are embedded as index functions `ℕ → ℚ` together with
  explicit dimensions; writing a loop over a buffer becomes a function
  giving each output cell.
* fallible operations (out-of-bounds LUT reads, rejected buffers) are
  embedded with `Option`.
-/

namespace M30

/-- `roundf` for a non-negative rational: round half away from zero. -/
def natRoundQ (q : ℚ) : ℕ := (Int.floor (q + 1/2)).toNat

/-- C `fmod` for a non-negative dividend and positive divisor. -/
def qfmod (x m : ℚ) : ℚ := x - m * (Int.floor (x / m) : ℚ)

/-! ### GPixel.cpp: modulation-index LUTs and `GPixel::getGcf` -/

/-- 1e9/(3·p): the GCF of a modulation pair with period-multiplier
product p, and also the frequency of modulation index p
(`GCF34` .. `GCF90` and the entries of `IDX_TO_FRQ_LUT`). -/
def gcfOfProduct (p : ℕ) : ℚ := 1000000000/(3*(p:ℚ))

/-- `GPixel::IDX_TO_FRQ_LUT`: frequency for modulation index n is
1e9/(3·n); entries 0..2 are 0 (invalid). -/
def IDX_TO_FRQ_LUT : List ℚ :=
  [0, 0, 0, gcfOfProduct 3, gcfOfProduct 4, gcfOfProduct 5, gcfOfProduct 6,
   gcfOfProduct 7, gcfOfProduct 8, gcfOfProduct 9, gcfOfProduct 10]

/-- `GPixel::IDX_TO_GCF_LUT`, row by row as written in the source.
Rows 0..2 have ten entries in the source; they are only reached when the
frequency LUT gave 0, so `getGcf` never reads them. -/
def IDX_TO_GCF_LUT : List (List ℚ) :=
  [ [0,0,0, 0,0,0,0,0,0,0],
    [0,0,0, 0,0,0,0,0,0,0],
    [0,0,0, 0,0,0,0,0,0,0],
    [0,0,0, 0, gcfOfProduct 12, 0, 0, 0, 0, 0, 0],
    [0,0,0, gcfOfProduct 12, 0, gcfOfProduct 20, 0, 0, 0, 0, 0],
    [0,0,0, 0, gcfOfProduct 20, 0, gcfOfProduct 30, 0, 0, 0, 0],
    [0,0,0, 0, 0, gcfOfProduct 30, 0, gcfOfProduct 42, 0, 0, 0],
    [0,0,0, 0, 0, 0, gcfOfProduct 42, 0, gcfOfProduct 56, 0, 0],
    [0,0,0, 0, 0, 0, 0, gcfOfProduct 56, 0, gcfOfProduct 72, 0],
    [0,0,0, 0, 0, 0, 0, 0, gcfOfProduct 72, 0, gcfOfProduct 90],
    [0,0,0, 0, 0, 0, 0, 0, 0, gcfOfProduct 90, 0] ]

/-- `GPixel::getGcf`. Returns `some (gcf, numErrorsLogged)`; an
out-of-bounds LUT read (an index past the 11-entry LUTs, undefined
behaviour in the C++) is `none`. -/
def getGcf (f0 f1 : ℕ) : Option (ℕ × ℕ) :=
  match IDX_TO_FRQ_LUT.get? f0, IDX_TO_FRQ_LUT.get? f1 with
  | some q0, some q1 =>
    if q0 = 0 ∨ q1 = 0 then some (0, 1)
    else
      match (IDX_TO_GCF_LUT.get? f0).bind (fun row => row.get? f1) with
      | some g => if g = 0 then some (0, 1) else some (natRoundQ g, 0)
      | none => none
  | _, _ => none

/-- The pairs `getGcf` accepts: adjacent indices, both in 3..10. -/
def gcfAdjacentPair (f0 f1 : ℕ) : Bool :=
  (3 ≤ f0 && f0 ≤ 10) && (3 ≤ f1 && f1 ≤ 10) && (f0 + 1 = f1 || f1 + 1 = f0)

/-- The values `getGcf` can return for a valid pair (used as the
hypothesis on the stored `_gcf` elsewhere). -/
def validGcfs : List ℕ :=
  [27777778, 16666667, 11111111, 7936508, 5952381, 4629630, 3703704]

/-! ### RtdMetadata.cpp: `RtdMetadata::adjustTimestamp`

The metadata row is a vector of 16-bit words; in the `Metadata_t` layout
words 24..30 are `timestamp0..timestamp6`.  `adjustTimestamp` casts the
buffer to `Metadata_t` and rewrites `timestamp2..timestamp6`
(word indices 26..30). All the masked values written back provably fit
in 16 bits, so the C++ `(uint16_t)` casts are dropped. Disjoint-field
bit operations are written arithmetically:
`x & 0xfff0` is `x % 2^16 / 2^4 * 2^4`, `x >> k` is `x / 2^k`,
`x << k` is `x * 2^k`, and `|` of disjoint fields is `+`. -/

/-- bits 4..15 of a 16-bit word: `x & 0xfff0`. -/
def maskSecWord (x : ℕ) : ℕ := x % 65536 / 16 * 16

/-- `RtdMetadata::adjustTimestamp(ptr, offset)` on the metadata word
list. The 52-bit seconds field is assembled from words 26..30, the
offset added (64-bit arithmetic), and the result written back. -/
def adjustTimestamp (md : List ℕ) (offset : ℕ) : List ℕ :=
  if offset = 0 then md
  else
    let ts2 := md.getD 26 0
    -- secs = (ts2>>12) | (ts3 & 0xfff0) | ((ts4 & 0xfff0)<<12)
    --        | ((ts5 & 0xfff0)<<24) | ((ts6 & 0xfff0)<<36), plus offset, as uint64
    let secs0 := ts2 % 65536 / 4096 + maskSecWord (md.getD 27 0)
                 + maskSecWord (md.getD 28 0) * 4096
                 + maskSecWord (md.getD 29 0) * 16777216
                 + maskSecWord (md.getD 30 0) * 68719476736
    let secs := (secs0 + offset) % 2^64
    -- ts2' = (ts2 & 0xff0) | ((secs & 0xf) << 12); ts3' = secs & 0xfff0;
    -- ts4' = (secs & 0xfff0000) >> 12; ts5' = (secs & 0xfff0000000) >> 24;
    -- ts6' = (secs & 0xfff0000000000) >> 36
    ((((md.set 26 (ts2 % 4096 / 16 * 16 + secs % 16 * 4096)).set
        27 (secs % 65536 / 16 * 16)).set
        28 (secs % 268435456 / 65536 * 16)).set
        29 (secs % 1099511627776 / 268435456 * 16)).set
        30 (secs % 4503599627370496 / 1099511627776 * 16)

/-- The metadata word list of end-to-end scenarios 1/2 of the spec:
ts0..ts6 = 0x0125 0x3456 0x6787 0x9ab8 0xcde9 0xf01a 0x234b at word
indices 24..30, other words zero. -/
def exTimestampMd : List ℕ :=
  List.replicate 24 0 ++ [0x0125, 0x3456, 0x6787, 0x9ab8, 0xcde9, 0xf01a, 0x234b]

/-! ### network_streamer.cpp: `TCPWrappedStreamer::NetworkSend` -/

/-- `PROCESSEDDATA_PAYLOAD_MAX_SIZE` from network_streamer.hpp. -/
def PROCESSEDDATA_PAYLOAD_MAX_SIZE : ℕ := 1472

/-- Big-endian bytes of a 32-bit value (`htonl`). -/
def be32 (n : ℕ) : List ℕ := [n / 2^24 % 256, n / 2^16 % 256, n / 2^8 % 256, n % 256]

/-- `TCPWrappedStreamer::NetworkSend`: the byte stream pushed to the
socket for one payload. The 16-byte `FramingHeader` is zeroed, its
`len` word set to `htonl(len)`, and the payload copied behind it.
Oversized payloads are dropped (`none`); the socket-absent case sends
nothing and is not modelled. -/
def networkSend (payload : List ℕ) : Option (List ℕ) :=
  if payload.length > PROCESSEDDATA_PAYLOAD_MAX_SIZE then none
  else some (be32 payload.length ++ List.replicate 12 0 ++ payload)

/-! ### RawToDepthDsp.cpp: `RawToDepthDsp::tapRotation`

`roiVector` holds the raw ROI as interleaved permutation/frequency
planes of `w*phases*h` values each (`roiImageStride`); `frame` is the
in-out destination buffer. When `doTapRotation` is false the plane of
`freqIdx` is copied into `frame` (buffer-size guard: leave `frame`
untouched); then — unconditionally, as in the source, which only
returns early out of the copy guard — the three-permutation sum
overwrites `frame` unless its own size guard fails first. -/

/-- `RawToDepthDsp::tapRotation`. Returns the final contents of
`frame`. -/
def tapRotation (rv frame0 : List ℚ) (freqIdx h w phases : ℕ) (doTap : Bool) : List ℚ :=
  let S := w * phases * h
  if ¬doTap ∧ rv.length < freqIdx * S + frame0.length then frame0
  else
    let frame1 := if doTap then frame0 else (rv.drop (freqIdx * S)).take frame0.length
    if rv.length < (4 + freqIdx) * S + h * w then frame1
    else
      List.ofFn (fun i : Fin frame1.length =>
        if (i : ℕ) < 3 * (h * w) then
          let p := 3 * ((i : ℕ) / 3)
          let b1 := freqIdx * S
          let b2 := (2 + freqIdx) * S
          let b3 := (4 + freqIdx) * S
          if (i : ℕ) % 3 = 0 then
            rv.getD (b1+p) 0 + rv.getD (b2+p+1) 0 + rv.getD (b3+p+2) 0
          else if (i : ℕ) % 3 = 1 then
            rv.getD (b1+p+1) 0 + rv.getD (b2+p+2) 0 + rv.getD (b3+p) 0
          else
            rv.getD (b1+p+2) 0 + rv.getD (b2+p) 0 + rv.getD (b3+p+1) 0
        else frame1.getD i 0)

/-! ### NearestNeighbor.cpp

Range images are index functions `ℕ → ℚ` in row-major order with
explicit dimensions `h × w` (`size[0] × size[1]`). `fabs` is spelled
`qabs` so concrete evaluation stays easy. -/

/-- C `fabs`. -/
def qabs (x : ℚ) : ℚ := if x < 0 then -x else x

/-- `NearestNeighbor::_lutNeighborCountTolerance`. -/
def lutNeighborCountTolerance : List ℕ := [0, 3, 5, 5, 7, 11]

/-- `NearestNeighbor::_lutWindowSize`. -/
def lutWindowSize : List ℕ := [0, 3, 5, 6, 7, 9]

/-- `NearestNeighbor::_flutRangeToleranceFrac`. -/
def flutRangeToleranceFrac : List ℚ := [0, 1/16, 1/16, 1/16, 1/16, 1/16]

/-- `MAX_NEAREST_NEIGHBOR_IDX`. -/
def MAX_NEAREST_NEIGHBOR_IDX : ℕ := 5

/-- `countNeighbors` from NearestNeighbor.cpp: count the entries of the
`winSize`-square window with top-left linear index `startIdx` whose
value is within `rangeTol` of `val`; keep `val` if at least
`minNeighborCount` such entries exist, else output 0. -/
def countNeighbors (val rangeTol : ℚ) (minNeighborCount : ℕ) (ranges : ℕ → ℚ)
    (startIdx winSize stride : ℕ) : ℚ :=
  let numNeighbors :=
    ((List.range winSize).map (fun rowIdx =>
      ((List.range winSize).map (fun colIdx =>
        if rangeTol ≥ qabs (ranges (startIdx + rowIdx * stride + colIdx) - val)
        then 1 else 0)).sum)).sum
  if numNeighbors < minNeighborCount then 0 else val

/-- `NearestNeighbor::removeOutliers`, pointwise: the value of output
cell `i`. Images with either dimension under
`_lutNeighborCountTolerance.back()` = 11 pass through, as does filter
level 0; levels above 5 are clamped. Interior pixels (those the loops
reach) get `countNeighbors` over the window whose top-left is
`halfWin` up and left of the pixel; the border is untouched. -/
def removeOutliers (ranges : ℕ → ℚ) (filterLevel h w : ℕ) : ℕ → ℚ :=
  if h < (lutNeighborCountTolerance.getLast?.getD 0) ∨
     w < (lutNeighborCountTolerance.getLast?.getD 0) then ranges
  else if filterLevel = 0 then ranges
  else
    let fl := if filterLevel > MAX_NEAREST_NEIGHBOR_IDX then MAX_NEAREST_NEIGHBOR_IDX
              else filterLevel
    let winSize := lutWindowSize.getD fl 0
    let halfWin := winSize / 2
    let rangeTolFrac := flutRangeToleranceFrac.getD fl 0
    let minN := lutNeighborCountTolerance.getD fl 0
    let imh := h - 2 * halfWin
    let imw := w - 2 * halfWin
    fun i =>
      let y := i / w
      let x := i % w
      if halfWin ≤ y ∧ y < halfWin + imh ∧ halfWin ≤ x ∧ x < halfWin + imw then
        let val := ranges i
        countNeighbors val (1/1024 + val * rangeTolFrac) minN ranges
          ((y - halfWin) * w + (x - halfWin)) winSize w
      else ranges i

/-- Claim-side count (amended tolerance): entries of the
`winSize`-square window with top-left `(y-halfWin, x-halfWin)` whose
range differs from the center pixel `(y,x)` by at most
1/1024 + center/16. -/
def windowMatchCount (ranges : ℕ → ℚ) (w y x halfWin winSize : ℕ) : ℕ :=
  ((List.range winSize).map (fun r =>
    ((List.range winSize).map (fun c =>
      if qabs (ranges ((y - halfWin + r) * w + (x - halfWin + c)) - ranges (y * w + x)) ≤
         1/1024 + ranges (y * w + x) * (1/16)
      then 1 else 0)).sum)).sum

/-- Claim-side count with the claim's original tolerance: entries
differing from the center by less than max(1/1024, center/16). -/
def windowMatchCountOrig (ranges : ℕ → ℚ) (w y x halfWin winSize : ℕ) : ℕ :=
  ((List.range winSize).map (fun r =>
    ((List.range winSize).map (fun c =>
      if qabs (ranges ((y - halfWin + r) * w + (x - halfWin + c)) - ranges (y * w + x)) <
         max (1/1024) (ranges (y * w + x) * (1/16))
      then 1 else 0)).sum)).sum

/-- The 11×11 image of the C8 counterexample: center pixel (5,5) has
range 1 m, its left/right neighbors sit exactly 1/16 + 1/1024 away,
everything else is far (100). -/
def exNNImg : ℕ → ℚ :=
  fun i => if i = 60 then 1
           else if i = 59 ∨ i = 61 then 1 + 1/16 + 1/1024
           else 100

/-! ### RawToDepthCommon.cpp / processWholeFrame_float.cpp: range output

`RawToDepthCommon::getRange` converts the float range image to 16-bit
1/1024-meter counts while masking invalid pixels; the tail of
`RawToDepthV2_float::localProcessFrame` first subtracts the temperature
offset, clamps at zero and wraps modulo the maximum unambiguous range.
Buffers are index functions; the output is given per pixel. -/

/-- `RANGE_LIMIT_FRACTION` (0.8F) from RtdMetadata.h. -/
def RANGE_LIMIT_FRACTION : ℚ := 8/10

/-- `RANGE_NETWORK_SCALE` (1024.0F) from RtdMetadata.h. -/
def RANGE_NETWORK_SCALE : ℚ := 1024

/-- `FLT_MAX`, the initial `_rangeLimit`: (2²⁴−1)·2¹⁰⁴. -/
def FLT_MAX_Q : ℚ := (2^24 - 1) * 2^104

/-- `_halfc / _gcf` (`RawToDepth::getMaxUnambiguousRange`), with
`_halfc` = 0.5·299792498 and `_gcf` the rounded LUT value. -/
def murOfGcf (gcf : ℕ) : ℚ := (299792498/2 : ℚ) / (gcf : ℚ)

/-- `_rangeLimit` as set by `RawToDepth::realloc`: 80% of the maximum
unambiguous range when the metadata enables the limit, `FLT_MAX`
otherwise. -/
def rangeLimitOfMd (enableMaxRangeLimit : Bool) (gcf : ℕ) : ℚ :=
  if enableMaxRangeLimit then RANGE_LIMIT_FRACTION * murOfGcf gcf else FLT_MAX_Q

/-- One pixel of `RawToDepthCommon::getRange`. The `(uint16_t)` cast of
the rounded scaled range is `% 65536`; a pixel-mask index past the mask
leaves the pixel unmasked, as in the source. -/
def getRangePixel (fRanges fMinMaxMask fSnr : ℕ → ℚ) (pixelMask : ℕ → ℕ)
    (pixelMaskLen startY startX stepY stepX stride w : ℕ)
    (disableRangeMasking : Bool) (snrThresh rangeLimit : ℚ) (idx : ℕ) : ℕ :=
  let rangeX := idx % w
  let rangeY := idx / w
  let pixelMaskIdx := (startX + rangeX * stepX) + stride * (startY + rangeY * stepY)
  let minMaxMask := fMinMaxMask idx > 1/2
  let pmask := pixelMaskIdx < pixelMaskLen ∧ pixelMask pixelMaskIdx = 0
  let iRange0 := fRanges idx
  let iRange := if ¬disableRangeMasking ∧
      (minMaxMask ∨ fSnr idx < 2 * snrThresh ∨ pmask ∨ iRange0 > rangeLimit)
    then 0 else iRange0
  natRoundQ (RANGE_NETWORK_SCALE * iRange) % 65536

/-- The per-pixel tail of `localProcessFrame` before `getRange`:
subtract the temperature offset, clamp negatives to zero, wrap modulo
the maximum unambiguous range. -/
def wholeFrameRangeAdjust (tempOffset mur r : ℚ) : ℚ :=
  let r1 := r - tempOffset
  let r2 := if r1 < 0 then 0 else r1
  qfmod r2 mur

/-- One pixel of the range image a grid-mode `FovSegment` publishes:
the adjusted range image fed through `getRange` with the range limit
derived from the metadata flags. -/
def publishedRangePixel (fRanges fMinMaxMask fSnr : ℕ → ℚ) (pixelMask : ℕ → ℕ)
    (pixelMaskLen startY startX stepY stepX stride w : ℕ)
    (disableRangeMasking enableMaxRangeLimit : Bool)
    (snrThresh tempOffset : ℚ) (gcf : ℕ) (idx : ℕ) : ℕ :=
  getRangePixel (fun i => wholeFrameRangeAdjust tempOffset (murOfGcf gcf) (fRanges i))
    fMinMaxMask fSnr pixelMask pixelMaskLen startY startX stepY stepX stride w
    disableRangeMasking snrThresh (rangeLimitOfMd enableMaxRangeLimit gcf) idx

/-- The range image of the C1 counterexample: pixel 0 sits a quarter
count below the maximum unambiguous range of the (3,4) modulation pair,
pixel 1 at 5 m (inside (0.8·MUR, MUR)). -/
def exC1Ranges : ℕ → ℚ := fun i => if i = 0 then 22103/4096 else 5

/-- The published range pixels of the C1 counterexample: GCF 27777778
(the (3,4) pair), range masking disabled and the max-range limit
enabled by the metadata, temperature offset 0. -/
def exC1Pub (idx : ℕ) : ℕ :=
  publishedRangePixel exC1Ranges (fun _ => 0) (fun _ => 1000) (fun _ => 1)
    0 0 0 1 1 1 2 true true 0 0 27777778 idx

/-! ### FloatVectorPool.cpp

The pool keeps two parallel lists: `_vectors` (shared pointers to
`vector<float>`) and `_inUse` (busy flags). A pooled vector is embedded
as `(identity, size)`: the identity stands for the pointer (fresh ids
come from `nextId`), the size for `vector::size()`. -/

structure FloatVectorPool where
  vectors : List (ℕ × ℕ)
  inUse : List Bool
  nextId : ℕ

/-- The loop of `FloatVectorPool::find`: first index (counting from `k`)
whose vector has the wanted size and is not busy. Running out of busy
flags before vectors (impossible when the lists have equal length)
corresponds to the C++ `.at()` throwing. -/
def findAux (s : ℕ) : List (ℕ × ℕ) → List Bool → ℕ → Option ℕ
  | [], _, _ => none
  | _ :: _, [], _ => none
  | v :: vs, b :: bs, k => if v.2 = s ∧ b = false then some k else findAux s vs bs (k+1)

/-- `FloatVectorPool::find(size)`. -/
def FloatVectorPool.find (s : ℕ) (p : FloatVectorPool) : Option ℕ :=
  findAux s p.vectors p.inUse 0

/-- `FloatVectorPool::get(size)`: reuse the first non-busy size-matched
entry, marking it busy; otherwise append a fresh vector marked busy. -/
def FloatVectorPool.get (s : ℕ) (p : FloatVectorPool) :
    (ℕ × ℕ) × FloatVectorPool :=
  match p.find s with
  | some i => (p.vectors.getD i (0, 0), { p with inUse := p.inUse.set i true })
  | none => ((p.nextId, s),
      { vectors := p.vectors ++ [(p.nextId, s)],
        inUse := p.inUse ++ [true],
        nextId := p.nextId + 1 })

/-- `FloatVectorPool::release(vec)`: mark the entry whose pointer
matches as non-busy; an unknown pointer only logs. -/
def FloatVectorPool.release (id : ℕ) (p : FloatVectorPool) : FloatVectorPool :=
  match p.vectors.findIdx? (fun v => v.1 = id) with
  | some i => { p with inUse := p.inUse.set i false }
  | none => p

/-- The loop of `FloatVectorPool::clear`: keep the vectors whose busy
flag is set, dropping the rest. -/
def keepBusyAux : List (ℕ × ℕ) → List Bool → List (ℕ × ℕ)
  | v :: vs, b :: bs => if b then v :: keepBusyAux vs bs else keepBusyAux vs bs
  | _, _ => []

/-- `FloatVectorPool::clear()`: retain exactly the busy entries (and
their `true` flags). -/
def FloatVectorPool.clear (p : FloatVectorPool) : FloatVectorPool :=
  { vectors := keepBusyAux p.vectors p.inUse,
    inUse := p.inUse.filter (fun b => b),
    nextId := p.nextId }

/-! ### RtdMetadata.h / RawToDepth.cpp: metadata fields and per-ROI
validation

`Md` carries the raw 16-bit metadata words a single FOV slot reads
(global words plus that slot's `PerFovMetadata_t` words); each getter
right-shifts by `MD_SHIFT` = 4 as `getmd`/`getsmd` do. -/

structure Md where
  sensorMode : ℕ
  roiStartRow : ℕ
  roiNumRows : ℕ
  f0ModulationIndex : ℕ
  f1ModulationIndex : ℕ
  reduceMode : ℕ
  saturationThreshold : ℕ
  random_scan_table_tag : ℕ
  startStopFlags : ℕ
  binMode : ℕ
  fovRowStart : ℕ
  fovNumRows : ℕ
  fovNumRois : ℕ
  rtdAlgorithmCommon : ℕ
  randomFovTag : ℕ
  /-- the value of `RtdMetadata::getTimestamp()` for this ROI. -/
  timestamp64 : ℕ

/-- `getmd`: drop the 4 low bits of a metadata word. -/
def md16 (x : ℕ) : ℕ := x / 16

def Md.getSensorMode (m : Md) : ℕ := md16 m.sensorMode % 8
def Md.wasPreviousRoiSaturated (m : Md) : Prop := md16 m.sensorMode / 16 % 2 = 1
def Md.getNumModulationFrequencies (m : Md) : ℕ :=
  if m.getSensorMode = 2 then 0 else if m.getSensorMode = 1 then 1 else 2
def Md.getF0ModulationIndex (m : Md) : ℕ := md16 m.f0ModulationIndex
def Md.getF1ModulationIndex (m : Md) : ℕ := md16 m.f1ModulationIndex
def Md.getRoiStartRow (m : Md) : ℕ := md16 m.roiStartRow
def Md.getRoiNumRows (m : Md) : ℕ := md16 m.roiNumRows
def Md.getNumPermutations (m : Md) : ℕ := if md16 m.reduceMode = 0 then 3 else 1
def Md.getStripeModeEnabled (m : Md) : Prop := md16 m.rtdAlgorithmCommon % 2 = 1
def Md.getFirstRoi (m : Md) : Prop :=
  m.getStripeModeEnabled ∨ md16 m.startStopFlags % 2 = 1
def Md.getFrameCompleted (m : Md) : Prop :=
  m.getStripeModeEnabled ∨ md16 m.startStopFlags / 2 % 2 = 1
def Md.getDisableRtd (m : Md) : Prop := md16 m.rtdAlgorithmCommon / 2^11 % 2 = 1
def Md.getScanTableTag (m : Md) : ℕ := md16 m.random_scan_table_tag
def Md.getRandomFovTag (m : Md) : ℕ := md16 m.randomFovTag
def Md.getBinningX (m : Md) : ℕ := if md16 m.binMode = 0 then 1 else md16 m.binMode
def Md.getBinningY (m : Md) : ℕ := m.getBinningX
def Md.getFovStartRow (m : Md) : ℕ := md16 m.fovRowStart
def Md.getFovNumRows (m : Md) : ℕ := md16 m.fovNumRows
def Md.getFovNumRois (m : Md) : ℕ :=
  if md16 m.rtdAlgorithmCommon % 2 = 1 then 1 else md16 m.fovNumRois
def Md.getFullImageHeight (m : Md) : ℕ := m.getFovNumRows / m.getBinningY
def Md.getFullImageWidth (m : Md) : ℕ := 640 / m.getBinningX

instance (m : Md) : Decidable m.getStripeModeEnabled := by
  unfold Md.getStripeModeEnabled; infer_instance
instance (m : Md) : Decidable m.getFirstRoi := by
  unfold Md.getFirstRoi; infer_instance
instance (m : Md) : Decidable m.getFrameCompleted := by
  unfold Md.getFrameCompleted; infer_instance
instance (m : Md) : Decidable m.getDisableRtd := by
  unfold Md.getDisableRtd; infer_instance
instance (m : Md) : Decidable m.wasPreviousRoiSaturated := by
  unfold Md.wasPreviousRoiSaturated; infer_instance

/-- `sizeof(Metadata_t)`: 456 16-bit words. -/
def sizeofMetadata : ℕ := 912

/-- `MD_ROW_BYTES`: the transported metadata row, 640·3 words. -/
def MD_ROW_BYTES : ℕ := 640 * 3 * 2

/-- The raw payload bytes `chkBufDataOnly` expects:
rows · 640 · 3 phases · frequencies · permutations · 2 bytes. -/
def Md.expectedBytesDataOnly (m : Md) : ℕ :=
  2 * (m.getRoiNumRows * 640 * 3 * m.getNumModulationFrequencies * m.getNumPermutations)

/-- `RawToDepth::validateMetadataValues`: DMFD only, two modulation
frequencies, and `(int)f0 − (int)f1 == 1` ("F0 must be the lower
frequency" — the higher index). -/
def Md.validateMetadataValues (m : Md) : Bool :=
  if m.getSensorMode = 0 ∧ m.getNumModulationFrequencies = 2 ∧
     (m.getF0ModulationIndex : ℤ) - (m.getF1ModulationIndex : ℤ) = 1
  then true else false

/-- `RawToDepth::validateMetadata`. `roiBytes = numBytes − 3840` is
32-bit unsigned arithmetic, so it wraps when the buffer is shorter than
the metadata row; `chkBufDataWithHeader`'s result is discarded by the
source and therefore not modelled. -/
def Md.validateMetadata (m : Md) (numBytes : ℕ) (veryFirstRoiReceived : Bool) : Bool :=
  if numBytes < sizeofMetadata then false
  else
    let roiBytes := (numBytes + 2^32 - MD_ROW_BYTES) % 2^32
    if roiBytes < m.expectedBytesDataOnly then false
    else if ¬m.validateMetadataValues then false
    else if ¬veryFirstRoiReceived ∧ ¬m.getFirstRoi then false
    else if ¬veryFirstRoiReceived ∧ m.wasPreviousRoiSaturated then false
    else true

/-! ### RawToDepth.cpp / RawToDepthV2_float.cpp: the per-FOV state
machine

`RtdState` carries the fields of one `RawToDepthV2_float` instance that
the mid-FOV checks and the whole-frame publish decision read.
`float` members (`_fs`, `_gcf`) are rationals; buffer members are
represented by their lengths where only the length is consulted. -/

structure RtdState where
  incompleteFov : Bool
  prevRoiWasLast : Bool
  disableRtd : Bool
  currentRoiIdx : ℤ
  timestamps : List ℕ
  expectedScanTableTag : ℕ
  expectedFovTag : ℕ
  expectedNumRois : ℕ
  fovStartRow : ℕ
  sensorFovStart : ℕ × ℕ
  sensorFovSize : ℕ × ℕ
  sensorFovStep : ℕ × ℕ
  size0 : ℕ
  size1 : ℕ
  fs0 : ℚ
  fs1 : ℚ
  gcf : ℚ
  roiStartRows : List ℕ
  activeRowsLen0 : ℕ
  activeRowsLen1 : ℕ
  roiIndexFramesLen0 : ℕ
  roiIndexFramesLen1 : ℕ
  fovSnrLen : ℕ

/-- `IDX_TO_FRQ_LUT[getF0ModulationIndex()]` (an index past the LUT is
an out-of-bounds vector read; it is embedded as the default 0). -/
def Md.frqF0 (m : Md) : ℚ := IDX_TO_FRQ_LUT.getD m.getF0ModulationIndex 0

/-- `IDX_TO_FRQ_LUT[getF1ModulationIndex()]`. -/
def Md.frqF1 (m : Md) : ℚ := IDX_TO_FRQ_LUT.getD m.getF1ModulationIndex 0

/-- `(float)GPixel::getGcf(...)` on this metadata's pair. -/
def Md.gcfVal (m : Md) : ℚ :=
  (((getGcf m.getF0ModulationIndex m.getF1ModulationIndex).getD (0, 0)).1 : ℚ)

/-- `RawToDepth::bufferSizesChanged`. -/
def bufferSizesChanged (s : RtdState) (m : Md) : Prop :=
  m.getFullImageHeight ≠ s.size0 ∨
  m.getFullImageWidth ≠ s.size1 ∨
  m.getBinningY ≠ s.sensorFovStep.1 ∨
  m.getBinningX ≠ s.sensorFovStep.2 ∨
  m.getFovStartRow ≠ s.sensorFovStart.1 ∨
  0 ≠ s.sensorFovStart.2 ∨
  m.getFovNumRows ≠ s.sensorFovSize.1 ∨
  640 ≠ s.sensorFovSize.2 ∨
  m.getFovNumRois ≠ s.timestamps.length ∨
  s.fs0 ≠ m.frqF0 ∨
  s.fs1 ≠ m.frqF1 ∨
  s.gcf ≠ m.gcfVal ∨
  s.fovStartRow ≠ m.getFovStartRow

/-- `RawToDepthV2_float::bufferSizesChanged` (parent check plus the
V2-held buffers). -/
def bufferSizesChangedV2 (s : RtdState) (m : Md) : Prop :=
  bufferSizesChanged s m ∨
  s.activeRowsLen0 ≠ m.getFovNumRows ∨
  s.activeRowsLen1 ≠ m.getFovNumRows ∨
  s.roiIndexFramesLen0 ≠ 480 * 640 ∨
  s.roiIndexFramesLen1 ≠ 480 * 640 ∨
  s.fovSnrLen ≠ 640 * m.getFovNumRows

instance (s : RtdState) (m : Md) : Decidable (bufferSizesChanged s m) := by
  unfold bufferSizesChanged; infer_instance

instance (s : RtdState) (m : Md) : Decidable (bufferSizesChangedV2 s m) := by
  unfold bufferSizesChangedV2; infer_instance

/-- `RawToDepth::saveTimestamp` (the base-class part): note the
frame-completed flag, drop on `getDisableRtd`, bump the ROI counter,
drop past-the-count ROIs, record the timestamp. Every drop marks the
FOV incomplete via `RETURN_CONDITION`. -/
def saveTimestampBase (s : RtdState) (m : Md) : RtdState × Bool :=
  if m.getDisableRtd then
    ({ s with prevRoiWasLast := decide m.getFrameCompleted,
              incompleteFov := true }, false)
  else if (s.timestamps.length : ℤ) ≤ s.currentRoiIdx + 1 then
    ({ s with prevRoiWasLast := decide m.getFrameCompleted,
              currentRoiIdx := s.currentRoiIdx + 1,
              incompleteFov := true }, false)
  else
    ({ s with prevRoiWasLast := decide m.getFrameCompleted,
              currentRoiIdx := s.currentRoiIdx + 1,
              timestamps :=
                if 0 ≤ s.currentRoiIdx + 1 ∧
                   s.currentRoiIdx + 1 < (s.timestamps.length : ℤ)
                then s.timestamps.set (s.currentRoiIdx + 1).toNat m.timestamp64
                else s.timestamps }, true)

/-- The mid-FOV state-machine checks of `RawToDepthV2_float::saveTimestamp`,
in source order, each dropping the ROI and marking the FOV incomplete;
`s1` is the state after the base-class step. -/
def saveTimestampChecks (s1 : RtdState) (m : Md) : RtdState × Bool :=
  if m.getScanTableTag ≠ s1.expectedScanTableTag then
    ({ s1 with incompleteFov := true }, false)
  else if m.getRandomFovTag ≠ s1.expectedFovTag then
    ({ s1 with incompleteFov := true }, false)
  else if m.getFovNumRois ≠ s1.expectedNumRois ∨
          (m.getFovStartRow, 0) ≠ s1.sensorFovStart ∨
          (m.getFovNumRows, 640) ≠ s1.sensorFovSize ∨
          (m.getBinningY, m.getBinningX) ≠ s1.sensorFovStep then
    ({ s1 with incompleteFov := true }, false)
  else if bufferSizesChangedV2 s1 m then
    ({ s1 with incompleteFov := true }, false)
  else if (m.getFovNumRows : ℤ) <
          (m.getRoiStartRow : ℤ) - (m.getFovStartRow : ℤ) + (m.getRoiNumRows : ℤ) then
    ({ s1 with incompleteFov := true }, false)
  else if s1.fovStartRow ≠ m.getFovStartRow then
    ({ s1 with incompleteFov := true }, false)
  else if m.getRoiStartRow ∉ s1.roiStartRows ∧
          m.getFovNumRows ≤ s1.roiStartRows.length then
    ({ s1 with incompleteFov := true }, false)
  else if m.getRoiStartRow ∉ s1.roiStartRows then
    ({ s1 with roiStartRows := s1.roiStartRows ++ [m.getRoiStartRow] }, true)
  else (s1, true)

/-- `RawToDepthV2_float::saveTimestamp`: the base-class step, then —
unless the base step already rejected the ROI — the mid-FOV checks. -/
def saveTimestampV2 (s : RtdState) (m : Md) : RtdState × Bool :=
  let r := saveTimestampBase s m
  if r.2 = false then r else saveTimestampChecks r.1 m

/-- `vector::resize` semantics used by `MAKE_VECTOR`. -/
def resizeList (l : List ℕ) (n : ℕ) : List ℕ :=
  if l.length = n then l else l.take n ++ List.replicate (n - l.length) 0

/-- The state effect of `RawToDepth::realloc` + the V2 overrides, as
run from `reset` on a first-roi: clear the incomplete flag (before the
GCF validity check, as in the source), then on a valid GCF adopt the
metadata's geometry, tags and counters and clear the start-row list.
`reset` also clears `_prevRoiWasLast`. -/
def resetState (s : RtdState) (m : Md) : RtdState :=
  let s := { s with prevRoiWasLast := false,
                    disableRtd := decide m.getDisableRtd,
                    incompleteFov := false,
                    gcf := m.gcfVal }
  if m.gcfVal = 0 then s
  else
    { s with
      size0 := m.getFullImageHeight,
      size1 := m.getFullImageWidth,
      sensorFovStart := (m.getFovStartRow, 0),
      sensorFovSize := (m.getFovNumRows, 640),
      sensorFovStep := (m.getBinningY, m.getBinningX),
      expectedNumRois := m.getFovNumRois,
      expectedScanTableTag := m.getScanTableTag,
      expectedFovTag := m.getRandomFovTag,
      fs0 := m.frqF0,
      fs1 := m.frqF1,
      fovStartRow := m.getFovStartRow,
      currentRoiIdx := -1,
      timestamps := resizeList s.timestamps m.getFovNumRois,
      roiStartRows := [],
      activeRowsLen0 := m.getFovNumRows,
      activeRowsLen1 := m.getFovNumRows,
      roiIndexFramesLen0 := 480 * 640,
      roiIndexFramesLen1 := 480 * 640,
      fovSnrLen := 640 * m.getFovNumRows }

/-- The publish decision of `localProcessFrame`: a `FovSegment` is
produced only when RTD is enabled, the FOV is complete, the expected
number of ROIs arrived and the last ROI was seen. -/
def publishDecision (s : RtdState) : Bool :=
  if s.disableRtd then false
  else if s.incompleteFov then false
  else if (s.expectedNumRois : ℤ) ≠ s.currentRoiIdx + 1 ∨ ¬s.prevRoiWasLast then false
  else true

/-- The claim's mid-FOV failure conditions (with "a duplicate
ROI-start-row" amended to "an unseen start row once the list is
full"), phrased as the code's predicates. -/
def midFovFailure (s : RtdState) (m : Md) : Prop :=
  m.getScanTableTag ≠ s.expectedScanTableTag ∨
  m.getRandomFovTag ≠ s.expectedFovTag ∨
  (s.timestamps.length : ℤ) ≤ s.currentRoiIdx + 1 ∨
  (m.getFovNumRois ≠ s.expectedNumRois ∨
    (m.getFovStartRow, 0) ≠ s.sensorFovStart ∨
    (m.getFovNumRows, 640) ≠ s.sensorFovSize ∨
    (m.getBinningY, m.getBinningX) ≠ s.sensorFovStep ∨
    bufferSizesChangedV2 s m ∨
    s.fovStartRow ≠ m.getFovStartRow) ∨
  (m.getFovNumRows : ℤ) <
    (m.getRoiStartRow : ℤ) - (m.getFovStartRow : ℤ) + (m.getRoiNumRows : ℤ) ∨
  (m.getRoiStartRow ∉ s.roiStartRows ∧ m.getFovNumRows ≤ s.roiStartRows.length)

/-- A well-formed metadata instance accepted by validation: DMFD,
modulation pair (9,8), one normal mid-FOV ROI of 2 rows in a 4-row
2-ROI FOV, engine tap rotation, HDR disabled. All fields are raw words
(decoded value shifted left 4). -/
def exMd : Md where
  sensorMode := 0
  roiStartRow := 0
  roiNumRows := 2 * 16
  f0ModulationIndex := 9 * 16
  f1ModulationIndex := 8 * 16
  reduceMode := 0
  saturationThreshold := 4095 * 16
  random_scan_table_tag := 5 * 16
  startStopFlags := 0
  binMode := 1 * 16
  fovRowStart := 0
  fovNumRows := 4 * 16
  fovNumRois := 2 * 16
  rtdAlgorithmCommon := 0
  randomFovTag := 7 * 16
  timestamp64 := 0

/-- A state mid-FOV consistent with `exMd`: the first ROI (start row 0)
has been consumed, one more is expected. -/
def exS : RtdState where
  incompleteFov := false
  prevRoiWasLast := false
  disableRtd := false
  currentRoiIdx := 0
  timestamps := [0, 0]
  expectedScanTableTag := 5
  expectedFovTag := 7
  expectedNumRois := 2
  fovStartRow := 0
  sensorFovStart := (0, 0)
  sensorFovSize := (4, 640)
  sensorFovStep := (1, 1)
  size0 := 4
  size1 := 640
  fs0 := Md.frqF0 exMd
  fs1 := Md.frqF1 exMd
  gcf := Md.gcfVal exMd
  roiStartRows := [0]
  activeRowsLen0 := 4
  activeRowsLen1 := 4
  roiIndexFramesLen0 := 480 * 640
  roiIndexFramesLen1 := 480 * 640
  fovSnrLen := 640 * 4

/-- `exMd` with the scan-table tag flipped mid-FOV (spec scenario 5). -/
def exMdTagFlip : Md := { exMd with random_scan_table_tag := 6 * 16 }

end M30

namespace M30

/-! ## Theorems -/

/-- Auxiliary: 1e9/(3·p) vanishes exactly for p = 0. -/
theorem gcfOfProduct_eq_zero_iff (p : ℕ) : gcfOfProduct p = 0 ↔ p = 0 := by
  unfold gcfOfProduct
  constructor
  · intro h
    by_contra hp
    have h3 : (3 * (p:ℚ)) ≠ 0 := by
      simp only [mul_ne_zero_iff]
      exact ⟨by norm_num, Nat.cast_ne_zero.mpr hp⟩
    rw [div_eq_zero_iff] at h
    rcases h with h | h
    · norm_num at h
    · exact h3 h
  · intro h; subst h; norm_num

/-- **C7** (corrected). For both indices inside the 11-entry LUTs,
`GPixel::getGcf` returns the rounding of 1e9/(3·n₀·n₁) with no error
logged when the indices are adjacent members of {3..10}, and returns 0
logging exactly one error otherwise. (Indices past the LUTs read out of
bounds — see the counterexample — so the claim holds only within the
LUTs.) -/
theorem getGcf_adjacent_or_error : ∀ f0 f1 : Fin 11,
    getGcf f0 f1 = (if gcfAdjacentPair f0 f1 then
      some (natRoundQ (gcfOfProduct ((f0:ℕ) * (f1:ℕ))), 0) else some (0, 1)) := by
  intro f0 f1
  fin_cases f0 <;> fin_cases f1 <;>
    simp [getGcf, IDX_TO_FRQ_LUT, IDX_TO_GCF_LUT, gcfAdjacentPair,
          gcfOfProduct_eq_zero_iff]

/-- **C7 counterexample**: index 11 lies outside {3..10}, where the claim
promises a 0 return with one error logged; the code instead reads
`IDX_TO_FRQ_LUT[11]`, past the end of the 11-entry vector. -/
theorem getGcf_oob_index : getGcf 3 11 = none := by
  simp [getGcf, IDX_TO_FRQ_LUT]

/-- Auxiliary: `List.getD` at an index other than the one being set. -/
theorem getD_set_ne (l : List ℕ) (i j v : ℕ) (h : i ≠ j) :
    (l.set i v).getD j 0 = l.getD j 0 := by
  simp [List.getD_eq_getElem?_getD, List.getElem?_set_ne h]

/-- **C6** (corrected). `RtdMetadata::adjustTimestamp` with offset 0
leaves the metadata bitwise unchanged; a nonzero offset edits only the
five timestamp words 26..30 (`timestamp2..timestamp6`), leaving every
other metadata word unchanged. (The claim's "only the four seconds
words" fails: word 26, whose low nibble is padding and whose middle
bits are nanoseconds, is rewritten as well — see the counterexample.) -/
theorem adjustTimestamp_frame (md : List ℕ) (offset : ℕ) :
    adjustTimestamp md 0 = md ∧
    (adjustTimestamp md offset).length = md.length ∧
    ∀ i, i < 26 ∨ 30 < i → (adjustTimestamp md offset).getD i 0 = md.getD i 0 := by
  refine ⟨by simp [adjustTimestamp], ?_, ?_⟩
  · unfold adjustTimestamp
    by_cases h : offset = 0 <;> simp [h]
  · intro i hi
    unfold adjustTimestamp
    by_cases h : offset = 0
    · simp [h]
    · simp only [h, if_false]
      rw [getD_set_ne _ _ _ _ (by omega), getD_set_ne _ _ _ _ (by omega),
          getD_set_ne _ _ _ _ (by omega), getD_set_ne _ _ _ _ (by omega),
          getD_set_ne _ _ _ _ (by omega)]

/-- **C6 witness**: the frame theorem applied at the spec's scenario
metadata, offset 1, word 0. -/
theorem adjustTimestamp_frame_witness :
    (adjustTimestamp exTimestampMd 1).getD 0 0 = exTimestampMd.getD 0 0 :=
  (adjustTimestamp_frame exTimestampMd 1).2.2 0 (Or.inl (by decide))

/-- **C6 counterexample**: adjusting the spec's scenario metadata by one
second changes word 26 (`timestamp2`) — its padding low nibble is
cleared — so the edit is not confined to the four pure-seconds words
27..30, and even within word 26 it touches more than the seconds field. -/
theorem adjustTimestamp_edits_word26 :
    (adjustTimestamp exTimestampMd 1).getD 26 0 % 16 ≠ exTimestampMd.getD 26 0 % 16 := by
  decide

/-- Auxiliary: spec end-to-end scenario 2 — adjusting by 0xABBACDDCEFFEA
produces exactly the word values listed in the spec (ts2 0x0780,
ts3..ts6 0x9aa0 0xaad0 0x9cf0 0xcf00), words 26..30. -/
theorem adjustTimestamp_scenario2 :
    ((adjustTimestamp exTimestampMd 0xABBACDDCEFFEA).drop 26).take 5 =
      [0x0780, 0x9aa0, 0xaad0, 0x9cf0, 0xcf00] := by decide

/-- **C9** (confirmed). Every payload `NetworkSend` frames is preceded
by a 16-byte header: the leading 4 bytes are the big-endian payload
length (the byte count after the header, excluding the header itself),
and the remaining 12 header bytes are zero. -/
theorem networkSend_framing (p w : List ℕ) (h : networkSend p = some w) :
    w.length = 16 + p.length ∧
    w.take 4 = be32 p.length ∧
    (w.drop 4).take 12 = List.replicate 12 0 ∧
    w.drop 16 = p ∧
    2^24 * w.getD 0 0 + 2^16 * w.getD 1 0 + 2^8 * w.getD 2 0 + w.getD 3 0 =
      (w.drop 16).length := by
  unfold networkSend at h
  by_cases hlen : p.length > PROCESSEDDATA_PAYLOAD_MAX_SIZE
  · simp [hlen] at h
  · simp only [hlen, if_false] at h
    have hw : w = be32 p.length ++ List.replicate 12 0 ++ p := by
      exact (Option.some_injective _ h).symm
    subst hw
    have hlen' : p.length ≤ 1472 := by
      simpa [PROCESSEDDATA_PAYLOAD_MAX_SIZE] using hlen
    refine ⟨by simp [be32]; omega, ?_, ?_, ?_, ?_⟩
    · simp [be32, List.take_append]
    · simp [be32, List.drop_append, List.take_append]
    · simp [be32]
    · have h24 : p.length / 2^24 % 256 = 0 := by omega
      have h16 : p.length / 2^16 % 256 = 0 := by omega
      have h8 : p.length / 2^8 % 256 = p.length / 2^8 := by omega
      simp [be32, List.getD_append, h24, h16, h8]
      omega

/-- **C9 witness**: the framing theorem applied to a concrete 3-byte
payload. -/
theorem networkSend_framing_witness :
    ([0, 0, 0, 3] ++ List.replicate 12 0 ++ [7, 8, 9]).drop 16 = [7, 8, 9] :=
  (networkSend_framing [7, 8, 9] _ (by decide)).2.2.2.1

/-- Auxiliary: what a successful `findAux` found. -/
theorem findAux_some_spec (s : ℕ) : ∀ (vs : List (ℕ × ℕ)) (bs : List Bool) (k i : ℕ),
    findAux s vs bs k = some i →
    ∃ j, i = k + j ∧ j < vs.length ∧ (vs.getD j (0, 0)).2 = s ∧ bs.getD j false = false := by
  intro vs
  induction vs with
  | nil => intro bs k i h; simp [findAux] at h
  | cons v vs ih =>
    intro bs k i h
    cases bs with
    | nil => simp [findAux] at h
    | cons b bs =>
      by_cases hc : v.2 = s ∧ b = false
      · refine ⟨0, ?_, by simp, hc.1, hc.2⟩
        simp only [findAux, if_pos hc, Option.some_inj] at h
        omega
      · simp only [findAux, if_neg hc] at h
        obtain ⟨j, hj1, hj2, hj3, hj4⟩ := ih bs (k+1) i h
        exact ⟨j + 1, by omega, by simpa using hj2, by simpa using hj3, by simpa using hj4⟩

/-- Auxiliary: a failed `findAux` saw no candidate (given enough busy
flags). -/
theorem findAux_none_spec (s : ℕ) : ∀ (vs : List (ℕ × ℕ)) (bs : List Bool) (k : ℕ),
    vs.length ≤ bs.length → findAux s vs bs k = none →
    ∀ j < vs.length, ¬((vs.getD j (0, 0)).2 = s ∧ bs.getD j false = false) := by
  intro vs
  induction vs with
  | nil => intro bs k _ _ j hj; simp at hj
  | cons v vs ih =>
    intro bs k hlen h j hj
    cases bs with
    | nil => simp at hlen
    | cons b bs =>
      by_cases hc : v.2 = s ∧ b = false
      · simp [findAux, if_pos hc] at h
      · simp only [findAux, if_neg hc] at h
        cases j with
        | zero => simpa using hc
        | succ j =>
          have := ih bs (k+1) (by simpa using hlen) h j (by simpa using hj)
          simpa using this

/-- Auxiliary: `keepBusyAux` is the zip-filter of the two lists. -/
theorem keepBusyAux_eq_zip_filter : ∀ (vs : List (ℕ × ℕ)) (bs : List Bool),
    vs.length = bs.length →
    keepBusyAux vs bs =
      (vs.zip bs).filterMap (fun vb => if vb.2 then some vb.1 else none) := by
  intro vs
  induction vs with
  | nil => intro bs h; cases bs <;> simp [keepBusyAux]
  | cons v vs ih =>
    intro bs h
    cases bs with
    | nil => simp at h
    | cons b bs =>
      cases b <;> simp [keepBusyAux, ih bs (by simpa using h)]

/-- Auxiliary: length of `keepBusyAux` is the number of set flags. -/
theorem keepBusyAux_length : ∀ (vs : List (ℕ × ℕ)) (bs : List Bool),
    vs.length = bs.length →
    (keepBusyAux vs bs).length = (bs.filter (fun b => b)).length := by
  intro vs
  induction vs with
  | nil => intro bs h; cases bs <;> simp_all [keepBusyAux]
  | cons v vs ih =>
    intro bs h
    cases bs with
    | nil => simp at h
    | cons b bs =>
      cases b <;> simp [keepBusyAux, ih bs (by simpa using h)]

/-- **C10** (confirmed). `FloatVectorPool`: `get`, `release` and `clear`
preserve the equal-length invariant of the vector and busy lists;
`get(size)` returns a vector of exactly `size` elements marked busy,
reusing the first non-busy size-matched entry when one exists (the
failed search proves none exists otherwise) and appending a fresh busy
one otherwise; `release` marks the (pointer-)matching entry non-busy;
`clear` keeps exactly the busy entries. -/
theorem floatVectorPool_ops (p : FloatVectorPool) (s id : ℕ)
    (hwf : p.vectors.length = p.inUse.length) :
    ((FloatVectorPool.get s p).2.vectors.length = (FloatVectorPool.get s p).2.inUse.length) ∧
    ((p.release id).vectors.length = (p.release id).inUse.length) ∧
    (p.clear.vectors.length = p.clear.inUse.length) ∧
    (FloatVectorPool.get s p).1.2 = s ∧
    (∀ i, p.find s = some i →
      i < p.vectors.length ∧ (p.vectors.getD i (0, 0)).2 = s ∧
      p.inUse.getD i false = false ∧
      (FloatVectorPool.get s p).1 = p.vectors.getD i (0, 0) ∧
      (FloatVectorPool.get s p).2.vectors = p.vectors ∧
      (FloatVectorPool.get s p).2.inUse = p.inUse.set i true) ∧
    (p.find s = none →
      (∀ j < p.vectors.length,
        ¬((p.vectors.getD j (0, 0)).2 = s ∧ p.inUse.getD j false = false)) ∧
      (FloatVectorPool.get s p).2.vectors = p.vectors ++ [(p.nextId, s)] ∧
      (FloatVectorPool.get s p).2.inUse = p.inUse ++ [true]) ∧
    (∀ i, p.vectors.findIdx? (fun v => v.1 = id) = some i →
      (p.release id).vectors = p.vectors ∧
      (p.release id).inUse = p.inUse.set i false) ∧
    (p.clear.vectors =
      (p.vectors.zip p.inUse).filterMap (fun vb => if vb.2 then some vb.1 else none)) := by
  refine ⟨?_, ?_, ?_, ?_, ?_, ?_, ?_, ?_⟩
  · unfold FloatVectorPool.get
    cases h : p.find s <;> simp [hwf]
  · unfold FloatVectorPool.release
    cases h : p.vectors.findIdx? (fun v => v.1 = id) <;> simp [hwf]
  · simpa [FloatVectorPool.clear] using keepBusyAux_length p.vectors p.inUse hwf
  · unfold FloatVectorPool.get
    cases h : p.find s with
    | none => simp
    | some i =>
      obtain ⟨j, hj1, hj2, hj3, _⟩ := findAux_some_spec s p.vectors p.inUse 0 i h
      simpa [hj1] using hj3
  · intro i h
    obtain ⟨j, hj1, hj2, hj3, hj4⟩ := findAux_some_spec s p.vectors p.inUse 0 i h
    have hij : i = j := by omega
    subst hij
    exact ⟨hj2, hj3, hj4, by simp [FloatVectorPool.get, h],
           by simp [FloatVectorPool.get, h], by simp [FloatVectorPool.get, h]⟩
  · intro h
    exact ⟨findAux_none_spec s p.vectors p.inUse 0 (le_of_eq hwf) h,
           by simp [FloatVectorPool.get, h], by simp [FloatVectorPool.get, h]⟩
  · intro i h
    simp [FloatVectorPool.release, h]
  · simpa [FloatVectorPool.clear] using keepBusyAux_eq_zip_filter p.vectors p.inUse hwf

/-- **C10 witness**: the pool theorem at a concrete two-entry pool. -/
theorem floatVectorPool_ops_witness :
    (FloatVectorPool.get 5 ⟨[(0, 5), (1, 3)], [false, true], 2⟩).1.2 = 5 :=
  (floatVectorPool_ops ⟨[(0, 5), (1, 3)], [false, true], 2⟩ 5 0 (by decide)).2.2.2.1

/-- Auxiliary: `getD` over `List.ofFn` at an in-range index. -/
theorem getD_ofFn {n : ℕ} (f : Fin n → ℚ) (i : ℕ) (h : i < n) :
    (List.ofFn f).getD i 0 = f ⟨i, h⟩ := by
  rw [List.getD_eq_getElem?_getD, List.getElem?_ofFn]
  simp [List.ofFnNthVal, h]

/-- Auxiliary: hardware-reduce mode of `tapRotation` copies the
`freqIdx` plane through. -/
theorem tapRotation_hw_copy (rv2 frame0 : List ℚ) (freqIdx h w : ℕ)
    (hfreq : freqIdx ≤ 1)
    (hf : frame0.length = 3 * (h * w))
    (hrv2 : rv2.length = 2 * (w * 3 * h)) :
    tapRotation rv2 frame0 freqIdx h w 3 false =
      (rv2.drop (freqIdx * (w * 3 * h))).take (3 * (h * w)) := by
  have hS : w * 3 * h = 3 * (h * w) := by ring
  have hfS : freqIdx * (w * 3 * h) ≤ w * 3 * h :=
    le_trans (Nat.mul_le_mul_right _ hfreq) (by omega)
  have hexp : (4 + freqIdx) * (w * 3 * h) = 4 * (w * 3 * h) + freqIdx * (w * 3 * h) := by
    ring
  unfold tapRotation
  rw [if_neg (by simp only [Bool.not_eq_true]; omega)]
  by_cases hz : h * w = 0
  · have hS0 : w * 3 * h = 0 := by omega
    rw [if_neg (by omega)]
    have hr : (rv2.drop (freqIdx * (w * 3 * h))).take (3 * (h * w)) = [] :=
      List.eq_nil_of_length_eq_zero (by simp; omega)
    rw [hr]
    exact List.eq_nil_of_length_eq_zero (by simp; omega)
  · rw [if_pos (by omega)]
    simp [hf]

/-- Auxiliary: `tapRotation` in hardware-reduce mode is the identity on
a buffer holding exactly one already-reduced plane. -/
theorem tapRotation_hw_id (v frame0 : List ℚ) (h w : ℕ)
    (hf : frame0.length = 3 * (h * w))
    (hv : v.length = 3 * (h * w)) :
    tapRotation v frame0 0 h w 3 false = v := by
  have hS : w * 3 * h = 3 * (h * w) := by ring
  unfold tapRotation
  rw [if_neg (by simp only [Bool.not_eq_true]; omega)]
  by_cases hz : h * w = 0
  · rw [if_neg (by omega)]
    have hv0 : v = [] := List.eq_nil_of_length_eq_zero (by omega)
    rw [hv0]
    exact List.eq_nil_of_length_eq_zero (by simp)
  · rw [if_pos (by omega)]
    simp only [Bool.false_eq_true, if_false, Nat.zero_mul, List.drop_zero, hf,
               ← hv, List.take_length]

/-- Auxiliary: engine-reduce mode of `tapRotation` runs the
three-permutation cyclic sum. -/
theorem tapRotation_engine (rv frame0 : List ℚ) (freqIdx h w : ℕ)
    (hfreq : freqIdx ≤ 1)
    (hf : frame0.length = 3 * (h * w))
    (hrv : rv.length = 6 * (w * 3 * h)) :
    ∀ idx < h * w, ∀ k < 3,
      (tapRotation rv frame0 freqIdx h w 3 true).getD (3 * idx + k) 0 =
        rv.getD (freqIdx * (w * 3 * h) + 3 * idx + k) 0 +
        rv.getD ((2 + freqIdx) * (w * 3 * h) + 3 * idx + (k + 1) % 3) 0 +
        rv.getD ((4 + freqIdx) * (w * 3 * h) + 3 * idx + (k + 2) % 3) 0 := by
  intro idx hidx k hk
  have hS : w * 3 * h = 3 * (h * w) := by ring
  have hfS : freqIdx * (w * 3 * h) ≤ w * 3 * h :=
    le_trans (Nat.mul_le_mul_right _ hfreq) (by omega)
  have hexp : (4 + freqIdx) * (w * 3 * h) = 4 * (w * 3 * h) + freqIdx * (w * 3 * h) := by
    ring
  have hin : 3 * idx + k < 3 * (h * w) := by omega
  have hin' : 3 * idx + k < frame0.length := by omega
  unfold tapRotation
  rw [if_neg (by simp), if_pos (rfl : (true : Bool) = true), if_neg (by omega)]
  rw [getD_ofFn _ _ hin']
  simp only []
  have hdiv : (3 * idx + k) / 3 = idx := by omega
  have hm0 : (3 * idx) % 3 = 0 := by omega
  have hm1 : (3 * idx + 1) % 3 = 1 := by omega
  have hm2 : (3 * idx + 2) % 3 = 2 := by omega
  interval_cases k <;>
    (simp [hin, hdiv, hm0, hm1, hm2, Nat.add_assoc]
     try (intro hcon; omega))

/-- **C5** (confirmed). `RawToDepthDsp::tapRotation` with
reduce-mode = engine (`doTapRotation` true) outputs, for every pixel,
out_A = A₀+B₁+C₂, out_B = B₀+C₁+A₂, out_C = C₀+A₁+B₂ summed over the
three permutation planes; with reduce-mode = hardware the single
permutation plane of `freqIdx` is copied through unchanged, and
applying tap rotation again to that already-reduced output returns it
unchanged (idempotence). -/
theorem tapRotation_modes (rv rv2 frame0 : List ℚ) (freqIdx h w : ℕ)
    (hfreq : freqIdx ≤ 1)
    (hf : frame0.length = 3 * (h * w))
    (hrv : rv.length = 6 * (w * 3 * h))
    (hrv2 : rv2.length = 2 * (w * 3 * h)) :
    (∀ idx < h * w, ∀ k < 3,
      (tapRotation rv frame0 freqIdx h w 3 true).getD (3 * idx + k) 0 =
        rv.getD (freqIdx * (w * 3 * h) + 3 * idx + k) 0 +
        rv.getD ((2 + freqIdx) * (w * 3 * h) + 3 * idx + (k + 1) % 3) 0 +
        rv.getD ((4 + freqIdx) * (w * 3 * h) + 3 * idx + (k + 2) % 3) 0) ∧
    tapRotation rv2 frame0 freqIdx h w 3 false =
      (rv2.drop (freqIdx * (w * 3 * h))).take (3 * (h * w)) ∧
    tapRotation (tapRotation rv2 frame0 freqIdx h w 3 false) frame0 0 h w 3 false =
      tapRotation rv2 frame0 freqIdx h w 3 false := by
  refine ⟨tapRotation_engine rv frame0 freqIdx h w hfreq hf hrv,
          tapRotation_hw_copy rv2 frame0 freqIdx h w hfreq hf hrv2, ?_⟩
  apply tapRotation_hw_id _ _ _ _ hf
  rw [tapRotation_hw_copy rv2 frame0 freqIdx h w hfreq hf hrv2]
  rw [List.length_take, List.length_drop, hrv2]
  have hS : w * 3 * h = 3 * (h * w) := by ring
  have hfS : freqIdx * (w * 3 * h) ≤ w * 3 * h :=
    le_trans (Nat.mul_le_mul_right _ hfreq) (by omega)
  omega

/-- Auxiliary: rounding zero gives zero. -/
theorem natRoundQ_zero : natRoundQ 0 = 0 := by
  unfold natRoundQ
  have h : Int.floor ((0 : ℚ) + 1/2) = 0 := by
    rw [Int.floor_eq_iff]
    norm_num
  rw [h]
  rfl

/-- Auxiliary: the rounded value exceeds the input by at most 1/2. -/
theorem natRoundQ_le (q : ℚ) (hq : 0 ≤ q) : (natRoundQ q : ℚ) ≤ q + 1/2 := by
  have h0 : (0 : ℤ) ≤ Int.floor (q + 1/2) := Int.floor_nonneg.mpr (by linarith)
  have h1 : ((natRoundQ q : ℕ) : ℤ) = Int.floor (q + 1/2) := Int.toNat_of_nonneg h0
  have h2 : ((natRoundQ q : ℕ) : ℚ) = ((Int.floor (q + 1/2) : ℤ) : ℚ) := by
    exact_mod_cast h1
  rw [h2]
  exact Int.floor_le _

/-- Auxiliary: the rounding stays under 65536 when the input does. -/
theorem natRoundQ_lt_2_16 (q : ℚ) (hq : 0 ≤ q) (hb : q + 1/2 < 65536) :
    natRoundQ q < 65536 := by
  have h := natRoundQ_le q hq
  have : (natRoundQ q : ℚ) < 65536 := by linarith
  exact_mod_cast this

/-- Auxiliary: `qfmod` of a non-negative value by a positive modulus
lands in [0, m). -/
theorem qfmod_bounds (x m : ℚ) (_hx : 0 ≤ x) (hm : 0 < m) :
    0 ≤ qfmod x m ∧ qfmod x m < m := by
  have hne : m ≠ 0 := ne_of_gt hm
  have hfl : ((Int.floor (x/m) : ℤ) : ℚ) ≤ x/m := Int.floor_le _
  have hfu : x/m < (Int.floor (x/m) : ℚ) + 1 := Int.lt_floor_add_one _
  have h2 : m * (x/m) = x := by field_simp
  unfold qfmod
  constructor
  · have h1 : m * ((Int.floor (x/m) : ℤ) : ℚ) ≤ m * (x/m) :=
      mul_le_mul_of_nonneg_left hfl hm.le
    linarith
  · have h1 : m * (x/m) < m * (((Int.floor (x/m) : ℤ) : ℚ) + 1) :=
      mul_lt_mul_of_pos_left hfu hm
    have h3 : m * (((Int.floor (x/m) : ℤ) : ℚ) + 1) =
        m * ((Int.floor (x/m) : ℤ) : ℚ) + m := by ring
    linarith

/-- Auxiliary: the post-processing tail keeps ranges in [0, mur). -/
theorem wholeFrameRangeAdjust_bounds (tempOffset mur r : ℚ) (hm : 0 < mur) :
    0 ≤ wholeFrameRangeAdjust tempOffset mur r ∧
    wholeFrameRangeAdjust tempOffset mur r < mur := by
  unfold wholeFrameRangeAdjust
  refine qfmod_bounds _ _ ?_ hm
  by_cases h : r - tempOffset < 0 <;> simp [h]
  linarith

/-- Auxiliary: the maximum unambiguous range for each valid GCF is
positive and at most 41 m. -/
theorem murOfGcf_bounds (gcf : ℕ) (hg : gcf ∈ validGcfs) :
    0 < murOfGcf gcf ∧ murOfGcf gcf ≤ 41 := by
  simp only [validGcfs, List.mem_cons, List.not_mem_nil, or_false] at hg
  rcases hg with h | h | h | h | h | h | h <;> subst h <;>
    constructor <;> norm_num [murOfGcf]

/-- The four invalidation conditions of the claim, as written in the
spec: min-max masked, summed SNR under twice the threshold, pixel-mask
entry zero, or range beyond the limit. -/
@[reducible]
def rangeMaskCond (fRanges fMinMaxMask fSnr : ℕ → ℚ) (pixelMask : ℕ → ℕ)
    (pixelMaskLen startY startX stepY stepX stride w : ℕ)
    (snrThresh rangeLimit : ℚ) (idx : ℕ) : Prop :=
  fMinMaxMask idx > 1/2 ∨
  fSnr idx < 2 * snrThresh ∨
  ((startX + (idx % w) * stepX) + stride * (startY + (idx / w) * stepY) < pixelMaskLen ∧
    pixelMask ((startX + (idx % w) * stepX) + stride * (startY + (idx / w) * stepY)) = 0) ∨
  fRanges idx > rangeLimit

/-- Auxiliary: `getRangePixel` written through the claim-side mask
condition. -/
theorem getRangePixel_eq (fRanges fMinMaxMask fSnr : ℕ → ℚ) (pixelMask : ℕ → ℕ)
    (pixelMaskLen startY startX stepY stepX stride w : ℕ)
    (disable : Bool) (snrThresh rangeLimit : ℚ) (idx : ℕ) :
    getRangePixel fRanges fMinMaxMask fSnr pixelMask pixelMaskLen startY startX
        stepY stepX stride w disable snrThresh rangeLimit idx =
      natRoundQ (RANGE_NETWORK_SCALE *
        (if ¬disable ∧ rangeMaskCond fRanges fMinMaxMask fSnr pixelMask pixelMaskLen
            startY startX stepY stepX stride w snrThresh rangeLimit idx
         then 0 else fRanges idx)) % 65536 := rfl

/-- **C2** (confirmed). With range masking active
(`getDisableRangeMasking` false), `RawToDepthCommon::getRange` zeroes a
pixel exactly when the min-max mask marks it, or its summed SNR is
under 2× the metadata SNR threshold, or its pixel-mask entry is 0, or
its range exceeds the range limit; with "disable range masking" set,
none of these conditions apply and the scaled range passes through. -/
theorem getRange_masking (fRanges fMinMaxMask fSnr : ℕ → ℚ) (pixelMask : ℕ → ℕ)
    (pixelMaskLen startY startX stepY stepX stride w : ℕ)
    (disable : Bool) (snrThresh rangeLimit : ℚ) (idx : ℕ) :
    (disable = false →
      (rangeMaskCond fRanges fMinMaxMask fSnr pixelMask pixelMaskLen startY startX
          stepY stepX stride w snrThresh rangeLimit idx →
        getRangePixel fRanges fMinMaxMask fSnr pixelMask pixelMaskLen startY startX
          stepY stepX stride w disable snrThresh rangeLimit idx = 0) ∧
      (¬rangeMaskCond fRanges fMinMaxMask fSnr pixelMask pixelMaskLen startY startX
          stepY stepX stride w snrThresh rangeLimit idx →
        getRangePixel fRanges fMinMaxMask fSnr pixelMask pixelMaskLen startY startX
          stepY stepX stride w disable snrThresh rangeLimit idx =
          natRoundQ (RANGE_NETWORK_SCALE * fRanges idx) % 65536)) ∧
    (disable = true →
      getRangePixel fRanges fMinMaxMask fSnr pixelMask pixelMaskLen startY startX
        stepY stepX stride w disable snrThresh rangeLimit idx =
        natRoundQ (RANGE_NETWORK_SCALE * fRanges idx) % 65536) := by
  refine ⟨fun hd => ⟨fun hc => ?_, fun hc => ?_⟩, fun hd => ?_⟩
  · rw [getRangePixel_eq, if_pos (by simp [hd, hc])]
    simp [natRoundQ_zero]
  · rw [getRangePixel_eq, if_neg (by simp [hd, hc])]
  · rw [getRangePixel_eq, if_neg (by simp [hd])]

/-- **C2 witness**: a pixel whose SNR 3 sits under 2×2, masking active,
is zeroed. -/
theorem getRange_masking_witness :
    getRangePixel (fun _ => 7) (fun _ => 0) (fun _ => 3) (fun _ => 1) 0 0 0 1 1 1 2
      false 2 100 0 = 0 :=
  ((getRange_masking (fun _ => 7) (fun _ => 0) (fun _ => 3) (fun _ => 1) 0 0 0 1 1 1 2
      false 2 100 0).1 rfl).1 (Or.inr (Or.inl (by norm_num)))

/-- **C1** (corrected). Every published grid-mode range pixel decodes
(÷1024 counts per meter) into [0, MUR + 1/2048): the claim's strict
r < MUR can be overshot by up to half a count of rounding (see the
counterexample). When the metadata enables the max-range limit AND does
not disable range masking, the decoded pixel is at most
0.8·MUR + 1/2048 or exactly 0; with masking disabled the limit is not
applied (see the counterexample). -/
theorem publishedRange_bounds (fRanges fMinMaxMask fSnr : ℕ → ℚ) (pixelMask : ℕ → ℕ)
    (pixelMaskLen startY startX stepY stepX stride w : ℕ)
    (disable enableMax : Bool) (snrThresh tempOffset : ℚ) (gcf : ℕ) (idx : ℕ)
    (hg : gcf ∈ validGcfs) :
    (0 : ℚ) ≤ (publishedRangePixel fRanges fMinMaxMask fSnr pixelMask pixelMaskLen
        startY startX stepY stepX stride w disable enableMax snrThresh tempOffset
        gcf idx : ℚ) / RANGE_NETWORK_SCALE ∧
    (publishedRangePixel fRanges fMinMaxMask fSnr pixelMask pixelMaskLen
        startY startX stepY stepX stride w disable enableMax snrThresh tempOffset
        gcf idx : ℚ) / RANGE_NETWORK_SCALE < murOfGcf gcf + 1/2048 ∧
    (enableMax = true → disable = false →
      ((publishedRangePixel fRanges fMinMaxMask fSnr pixelMask pixelMaskLen
          startY startX stepY stepX stride w disable enableMax snrThresh tempOffset
          gcf idx : ℚ) / RANGE_NETWORK_SCALE ≤
        RANGE_LIMIT_FRACTION * murOfGcf gcf + 1/2048 ∨
       publishedRangePixel fRanges fMinMaxMask fSnr pixelMask pixelMaskLen
          startY startX stepY stepX stride w disable enableMax snrThresh tempOffset
          gcf idx = 0)) := by
  obtain ⟨hm0, hm41⟩ := murOfGcf_bounds gcf hg
  obtain ⟨ha0, ham⟩ :=
    wholeFrameRangeAdjust_bounds tempOffset (murOfGcf gcf) (fRanges idx) hm0
  unfold publishedRangePixel
  rw [getRangePixel_eq]
  simp only [RANGE_NETWORK_SCALE]
  set c := ¬disable = true ∧ rangeMaskCond
      (fun i => wholeFrameRangeAdjust tempOffset (murOfGcf gcf) (fRanges i))
      fMinMaxMask fSnr pixelMask pixelMaskLen startY startX stepY stepX stride w
      snrThresh (rangeLimitOfMd enableMax gcf) idx with hc
  set mR := if c then (0 : ℚ)
      else wholeFrameRangeAdjust tempOffset (murOfGcf gcf) (fRanges idx) with hmR
  have hmRb : 0 ≤ mR ∧ mR < murOfGcf gcf := by
    rw [hmR]
    by_cases h : c
    · simp only [if_pos h]
      exact ⟨le_refl 0, hm0⟩
    · simp only [if_neg h]
      exact ⟨ha0, ham⟩
  have hscale : (0 : ℚ) < 1024 := by norm_num
  have hup : (natRoundQ (1024 * mR) : ℚ) ≤ 1024 * mR + 1/2 :=
    natRoundQ_le (1024 * mR) (mul_nonneg (by norm_num) hmRb.1)
  have hmRmur : 1024 * mR < 1024 * murOfGcf gcf :=
    mul_lt_mul_of_pos_left hmRb.2 hscale
  have hmur41 : 1024 * murOfGcf gcf ≤ 1024 * 41 :=
    mul_le_mul_of_nonneg_left hm41 (by norm_num)
  have hlt : natRoundQ (1024 * mR) < 65536 := by
    apply natRoundQ_lt_2_16 _ (mul_nonneg (by norm_num) hmRb.1)
    linarith
  rw [Nat.mod_eq_of_lt hlt]
  refine ⟨?_, ?_, ?_⟩
  · positivity
  · rw [div_lt_iff₀ hscale]
    linarith
  · intro hE hD
    by_cases h : c
    · right
      rw [hmR, if_pos h]
      simp [natRoundQ_zero]
    · left
      have hnl : ¬(wholeFrameRangeAdjust tempOffset (murOfGcf gcf) (fRanges idx) >
          rangeLimitOfMd enableMax gcf) := by
        intro hgt
        exact h (by
          rw [hc]
          refine ⟨by simp [hD], ?_⟩
          exact Or.inr (Or.inr (Or.inr hgt)))
      have hle : wholeFrameRangeAdjust tempOffset (murOfGcf gcf) (fRanges idx) ≤
          RANGE_LIMIT_FRACTION * murOfGcf gcf := by
        rw [not_lt] at hnl
        simpa [rangeLimitOfMd, hE] using hnl
      have hmRle : mR ≤ RANGE_LIMIT_FRACTION * murOfGcf gcf := by
        rw [hmR, if_neg h]
        exact hle
      rw [div_le_iff₀ hscale]
      have hfin : 1024 * mR ≤ 1024 * (RANGE_LIMIT_FRACTION * murOfGcf gcf) :=
        mul_le_mul_of_nonneg_left hmRle (by norm_num)
      linarith

/-- **C1 witness**: the bound theorem at the counterexample inputs,
pixel 1 (GCF of the (3,4) pair). -/
theorem publishedRange_bounds_witness :
    (exC1Pub 1 : ℚ) / RANGE_NETWORK_SCALE < murOfGcf 27777778 + 1/2048 :=
  (publishedRange_bounds exC1Ranges (fun _ => 0) (fun _ => 1000) (fun _ => 1)
    0 0 0 1 1 1 2 true true 0 0 27777778 1 (by decide)).2.1

/-- Auxiliary: `publishedRangePixel` with range masking disabled and
zero temperature offset just scales and rounds an in-range input. -/
theorem publishedRangePixel_eval_disabled (fRanges fMinMaxMask fSnr : ℕ → ℚ)
    (pixelMask : ℕ → ℕ) (pixelMaskLen startY startX stepY stepX stride w : ℕ)
    (enableMax : Bool) (snrThresh : ℚ) (gcf idx : ℕ)
    (h0 : 0 ≤ fRanges idx) (hlt : fRanges idx < murOfGcf gcf) :
    publishedRangePixel fRanges fMinMaxMask fSnr pixelMask pixelMaskLen startY
      startX stepY stepX stride w true enableMax snrThresh 0 gcf idx =
    natRoundQ (RANGE_NETWORK_SCALE * fRanges idx) % 65536 := by
  have hmur : 0 < murOfGcf gcf := lt_of_le_of_lt h0 hlt
  unfold publishedRangePixel
  rw [getRangePixel_eq, if_neg (by simp)]
  have hadj : wholeFrameRangeAdjust 0 (murOfGcf gcf) (fRanges idx) = fRanges idx := by
    unfold wholeFrameRangeAdjust
    simp only [sub_zero]
    rw [if_neg (not_lt.mpr h0)]
    unfold qfmod
    have hfl : Int.floor (fRanges idx / murOfGcf gcf) = 0 := by
      rw [Int.floor_eq_iff]
      constructor
      · push_cast
        exact div_nonneg h0 hmur.le
      · push_cast
        rw [div_lt_iff₀ hmur]
        linarith
    rw [hfl]
    push_cast
    ring
  simp only [hadj]

/-- **C1 counterexample**: with GCF 27777778 ((3,4) pair), range
masking disabled and the max-range limit enabled, pixel 0 (a range a
quarter count below MUR) publishes as 5526 counts, decoding to a value
at or above MUR — refuting r < MUR — and pixel 1 (5 m) publishes as
5120 counts, a nonzero value above 0.8·MUR although
`enable_max_range_limit` is set — refuting the limit clause. -/
theorem publishedRange_cex :
    murOfGcf 27777778 ≤ (exC1Pub 0 : ℚ) / RANGE_NETWORK_SCALE ∧
    (exC1Pub 1 : ℚ) / RANGE_NETWORK_SCALE >
      RANGE_LIMIT_FRACTION * murOfGcf 27777778 ∧
    exC1Pub 1 ≠ 0 := by
  have he0 : exC1Pub 0 = 5526 := by
    unfold exC1Pub
    rw [publishedRangePixel_eval_disabled _ _ _ _ _ _ _ _ _ _ _ _ _ _ _
      (by norm_num [exC1Ranges]) (by norm_num [exC1Ranges, murOfGcf])]
    have hval : exC1Ranges 0 = 22103/4096 := by norm_num [exC1Ranges]
    have hr : natRoundQ (RANGE_NETWORK_SCALE * exC1Ranges 0) = 5526 := by
      have hfl : Int.floor ((1024 : ℚ) * (22103/4096) + 1/2) = 5526 := by
        rw [Int.floor_eq_iff]
        norm_num
      unfold natRoundQ RANGE_NETWORK_SCALE
      rw [hval, hfl]
      rfl
    rw [hr]
  have he1 : exC1Pub 1 = 5120 := by
    unfold exC1Pub
    rw [publishedRangePixel_eval_disabled _ _ _ _ _ _ _ _ _ _ _ _ _ _ _
      (by norm_num [exC1Ranges]) (by norm_num [exC1Ranges, murOfGcf])]
    have hval : exC1Ranges 1 = 5 := by norm_num [exC1Ranges]
    have hr : natRoundQ (RANGE_NETWORK_SCALE * exC1Ranges 1) = 5120 := by
      have hfl : Int.floor ((1024 : ℚ) * 5 + 1/2) = 5120 := by
        rw [Int.floor_eq_iff]
        norm_num
      unfold natRoundQ RANGE_NETWORK_SCALE
      rw [hval, hfl]
      rfl
    rw [hr]
  rw [he0, he1]
  refine ⟨?_, ?_, by omega⟩
  · norm_num [murOfGcf, RANGE_NETWORK_SCALE]
  · norm_num [murOfGcf, RANGE_NETWORK_SCALE, RANGE_LIMIT_FRACTION]

/-- Auxiliary: the last entry of the neighbor-count LUT is 11. -/
theorem lutNeighborCountTolerance_last :
    lutNeighborCountTolerance.getLast?.getD 0 = 11 := rfl

/-- **C8** (corrected). `NearestNeighbor::removeOutliers` at level
L ∈ {1..5} uses the square window of size {3,5,6,7,9}[L] whose top-left
sits `winSize/2` up and left of the pixel, counts window entries whose
range differs from the center by at most 1/1024 + range/16 (the sum,
inclusive — not the claim's strict max(1/1024, range/16)), and zeroes
the center when fewer than {3,5,5,7,11}[L] match; level 0 is the
identity, as is any image smaller than 11 in either dimension. -/
theorem removeOutliers_spec (ranges : ℕ → ℚ) (L h w y x : ℕ)
    (hL1 : 1 ≤ L) (hL5 : L ≤ 5) (hh : 11 ≤ h) (hw : 11 ≤ w)
    (hy1 : lutWindowSize.getD L 0 / 2 ≤ y)
    (hy2 : y < h - lutWindowSize.getD L 0 / 2)
    (hx1 : lutWindowSize.getD L 0 / 2 ≤ x)
    (hx2 : x < w - lutWindowSize.getD L 0 / 2) :
    (removeOutliers ranges L h w (y * w + x) =
      if windowMatchCount ranges w y x (lutWindowSize.getD L 0 / 2) (lutWindowSize.getD L 0) <
          lutNeighborCountTolerance.getD L 0
      then 0 else ranges (y * w + x)) ∧
    removeOutliers ranges 0 h w = ranges ∧
    (∀ L2 h2 w2, h2 < 11 ∨ w2 < 11 → removeOutliers ranges L2 h2 w2 = ranges) := by
  refine ⟨?_, ?_, ?_⟩
  · have hw0 : 0 < w := by omega
    have hyx : (y * w + x) / w = y := by
      rw [Nat.mul_comm, Nat.mul_add_div hw0, Nat.div_eq_of_lt (by omega), Nat.add_zero]
    have hxx : (y * w + x) % w = x := by
      rw [Nat.mul_comm, Nat.mul_add_mod, Nat.mod_eq_of_lt (by omega)]
    have hfl : (if L > MAX_NEAREST_NEIGHBOR_IDX then MAX_NEAREST_NEIGHBOR_IDX else L) = L :=
      if_neg (by unfold MAX_NEAREST_NEIGHBOR_IDX; omega)
    have htol : flutRangeToleranceFrac.getD L 0 = 1/16 := by
      interval_cases L <;> rfl
    unfold removeOutliers
    rw [lutNeighborCountTolerance_last, if_neg (by omega), if_neg (by omega)]
    simp only [hfl, htol, hyx, hxx]
    have hcount : ∀ halfWin winSize : ℕ, halfWin = winSize / 2 →
        countNeighbors (ranges (y * w + x)) (1/1024 + ranges (y * w + x) * (1/16))
          (lutNeighborCountTolerance.getD L 0) ranges
          ((y - halfWin) * w + (x - halfWin)) winSize w =
        (if windowMatchCount ranges w y x halfWin winSize <
            lutNeighborCountTolerance.getD L 0
         then 0 else ranges (y * w + x)) := by
      intro halfWin winSize hhw
      unfold countNeighbors windowMatchCount
      have hsum : ((List.range winSize).map (fun rowIdx =>
          ((List.range winSize).map (fun colIdx =>
            if (1/1024 + ranges (y * w + x) * (1/16) : ℚ) ≥
               qabs (ranges ((y - halfWin) * w + (x - halfWin) + rowIdx * w + colIdx) -
                     ranges (y * w + x))
            then 1 else 0)).sum)).sum =
          ((List.range winSize).map (fun r =>
          ((List.range winSize).map (fun c =>
            if qabs (ranges ((y - halfWin + r) * w + (x - halfWin + c)) -
                     ranges (y * w + x)) ≤
               1/1024 + ranges (y * w + x) * (1/16)
            then 1 else 0)).sum)).sum := by
        apply congrArg List.sum
        apply List.map_congr_left
        intro r _
        apply congrArg List.sum
        apply List.map_congr_left
        intro c _
        have hidx : (y - halfWin) * w + (x - halfWin) + r * w + c =
            (y - halfWin + r) * w + (x - halfWin + c) := by ring
        simp only [hidx, ge_iff_le]
      simp only [hsum]
    rw [if_pos (by omega)]
    exact hcount (lutWindowSize.getD L 0 / 2) (lutWindowSize.getD L 0) rfl
  · unfold removeOutliers
    rw [lutNeighborCountTolerance_last, if_neg (by omega), if_pos rfl]
  · intro L2 h2 w2 hsmall
    unfold removeOutliers
    rw [lutNeighborCountTolerance_last, if_pos (by omega)]

/-- **C8 witness**: the filter theorem at level 1 on the counterexample
image, pixel (5,5) of an 11×11 image. -/
theorem removeOutliers_spec_witness :
    removeOutliers exNNImg 0 11 11 = exNNImg :=
  (removeOutliers_spec exNNImg 1 11 11 5 5 (by decide) (by decide) (by decide)
    (by decide) (by decide) (by decide) (by decide) (by decide)).2.1

/-- **C8 counterexample**: on the 11×11 image `exNNImg` at level 1 only
one window entry (the center itself) differs from the center by less
than max(1/1024, range/16), so the claim requires the center to be
zeroed; the code's inclusive sum tolerance counts 3 entries and keeps
the center at 1. -/
theorem removeOutliers_cex :
    removeOutliers exNNImg 1 11 11 60 = 1 ∧
    windowMatchCountOrig exNNImg 11 5 5 1 3 = 1 ∧ (1 : ℕ) < 3 := by
  refine ⟨?_, ?_, by omega⟩
  · unfold removeOutliers countNeighbors
    norm_num [lutNeighborCountTolerance, lutWindowSize, flutRangeToleranceFrac,
              MAX_NEAREST_NEIGHBOR_IDX, exNNImg, qabs, List.range_succ]
  · unfold windowMatchCountOrig
    norm_num [exNNImg, qabs, List.range_succ]

/-- **C3** (corrected). A validated ROI is DMFD with f₀ = f₁ + 1 (F0
is the lower frequency, so the claim's f₀ = f₁ − 1 is backwards) and
its buffer holds at least the `Metadata_t` struct; when the buffer is
at least the 3840-byte metadata row, it also holds the expected raw
bytes behind the row (buffers between 912 and 3839 bytes slip past the
payload check through a 32-bit underflow — see the counterexample). -/
theorem validateMetadata_necessary (m : Md) (numBytes : ℕ) (vfr : Bool)
    (hnb : numBytes < 2^32)
    (hacc : m.validateMetadata numBytes vfr = true) :
    m.getSensorMode = 0 ∧
    m.getF0ModulationIndex = m.getF1ModulationIndex + 1 ∧
    sizeofMetadata ≤ numBytes ∧
    (MD_ROW_BYTES ≤ numBytes →
      MD_ROW_BYTES + m.expectedBytesDataOnly ≤ numBytes) := by
  unfold Md.validateMetadata at hacc
  simp only at hacc
  split_ifs at hacc with h1 h2 h3 h4 h5
  unfold Md.validateMetadataValues at h3
  split_ifs at h3 with h6
  obtain ⟨hs, _, hf⟩ := h6
  refine ⟨hs, by omega, by omega, fun hrow => ?_⟩
  unfold MD_ROW_BYTES at h2 hrow ⊢
  omega

/-- **C3 witness**: the necessary-conditions theorem at `exMd` with a
49920-byte buffer (3840-byte row + 46080 raw bytes). -/
theorem validateMetadata_necessary_witness : exMd.getSensorMode = 0 :=
  (validateMetadata_necessary exMd 49920 true (by decide) (by decide)).1

/-- **C3 counterexample**: (a) `exMd` has f₀ = 9, f₁ = 8 — violating
the claim's f₀ = f₁ − 1 — yet its ROI is accepted, and the mirrored
pair (7,8) which satisfies the claim is rejected; (b) a 2000-byte
buffer smaller than metadata + expected raw bytes is accepted because
`numBytes − 3840` wraps in 32-bit arithmetic. -/
theorem validateMetadata_cex :
    exMd.validateMetadata 49920 true = true ∧
    exMd.getF0ModulationIndex ≠ exMd.getF1ModulationIndex - 1 ∧
    Md.validateMetadata
      { exMd with f0ModulationIndex := 7 * 16, f1ModulationIndex := 8 * 16 }
      49920 true = false ∧
    exMd.validateMetadata 2000 true = true ∧
    2000 < sizeofMetadata + exMd.expectedBytesDataOnly := by
  refine ⟨by decide, by decide, by decide, by decide, by decide⟩

/-- Auxiliary: the base `saveTimestamp` step only touches the
previous-ROI flag, the ROI counter, the timestamp list (preserving its
length) and the incomplete flag; it accepts exactly when RTD is
enabled and the bumped counter stays below the list length, and any
rejection marks the FOV incomplete. -/
theorem saveTimestampBase_shape (s : RtdState) (m : Md) :
    ∃ s1 b, saveTimestampBase s m = (s1, b) ∧
      s1.timestamps.length = s.timestamps.length ∧
      s1.expectedScanTableTag = s.expectedScanTableTag ∧
      s1.expectedFovTag = s.expectedFovTag ∧
      s1.expectedNumRois = s.expectedNumRois ∧
      s1.fovStartRow = s.fovStartRow ∧
      s1.sensorFovStart = s.sensorFovStart ∧
      s1.sensorFovSize = s.sensorFovSize ∧
      s1.sensorFovStep = s.sensorFovStep ∧
      s1.size0 = s.size0 ∧
      s1.size1 = s.size1 ∧
      s1.fs0 = s.fs0 ∧
      s1.fs1 = s.fs1 ∧
      s1.gcf = s.gcf ∧
      s1.roiStartRows = s.roiStartRows ∧
      s1.activeRowsLen0 = s.activeRowsLen0 ∧
      s1.activeRowsLen1 = s.activeRowsLen1 ∧
      s1.roiIndexFramesLen0 = s.roiIndexFramesLen0 ∧
      s1.roiIndexFramesLen1 = s.roiIndexFramesLen1 ∧
      s1.fovSnrLen = s.fovSnrLen ∧
      (b = true → ¬m.getDisableRtd ∧
        ¬((s.timestamps.length : ℤ) ≤ s.currentRoiIdx + 1) ∧
        s1.incompleteFov = s.incompleteFov) ∧
      (b = false → s1.incompleteFov = true) ∧
      (b = false → m.getDisableRtd ∨
        (s.timestamps.length : ℤ) ≤ s.currentRoiIdx + 1) := by
  unfold saveTimestampBase
  split_ifs with h1 h2 h3
  · exact ⟨_, _, rfl, by simp_all⟩
  · exact ⟨_, _, rfl, by simp_all⟩
  · exact ⟨_, _, rfl, by simp_all⟩
  · exact ⟨_, _, rfl, by simp_all⟩

set_option maxHeartbeats 1000000 in
/-- Auxiliary: a rejected ROI always marks its FOV incomplete. -/
theorem saveTimestampV2_reject (s : RtdState) (m : Md)
    (h : (saveTimestampV2 s m).2 = false) :
    (saveTimestampV2 s m).1.incompleteFov = true := by
  obtain ⟨s1, b, heq, hlen, eTag, eFov, eRois, eRow, eStart, eSize, eStep, eS0,
    eS1, eF0, eF1, eG, eRows, eA0, eA1, eR0, eR1, eSnr, hac, hrj, hwy⟩ :=
    saveTimestampBase_shape s m
  simp only [saveTimestampV2, heq] at h ⊢
  cases b
  · simpa using hrj rfl
  · rw [if_neg (by simp)] at h ⊢
    simp only [saveTimestampChecks] at h ⊢
    split_ifs at h ⊢
    all_goals rfl

/-- Auxiliary: sufficient conditions for passing every mid-FOV check. -/
theorem midFovFailure_intro (s : RtdState) (m : Md)
    (c1 : m.getScanTableTag = s.expectedScanTableTag)
    (c2 : m.getRandomFovTag = s.expectedFovTag)
    (hcnt : ¬((s.timestamps.length : ℤ) ≤ s.currentRoiIdx + 1))
    (c3 : m.getFovNumRois = s.expectedNumRois)
    (c4 : (m.getFovStartRow, 0) = s.sensorFovStart)
    (c5 : (m.getFovNumRows, 640) = s.sensorFovSize)
    (c6 : (m.getBinningY, m.getBinningX) = s.sensorFovStep)
    (c7 : ¬bufferSizesChangedV2 s m)
    (c8 : ¬((m.getFovNumRows : ℤ) <
        (m.getRoiStartRow : ℤ) - (m.getFovStartRow : ℤ) + (m.getRoiNumRows : ℤ)))
    (c9 : s.fovStartRow = m.getFovStartRow)
    (c10 : ¬(m.getRoiStartRow ∉ s.roiStartRows ∧
             m.getFovNumRows ≤ s.roiStartRows.length)) :
    ¬midFovFailure s m := by
  unfold midFovFailure
  rintro (hf | hf | hf | hf | hf | hf)
  · exact hf c1
  · exact hf c2
  · exact hcnt hf
  · rcases hf with hf | hf | hf | hf | hf | hf
    · exact hf c3
    · exact hf c4
    · exact hf c5
    · exact hf c6
    · exact c7 hf
    · exact hf c9
  · exact c8 hf
  · exact c10 hf

set_option maxHeartbeats 1000000 in
/-- Auxiliary: an accepted ROI passed every mid-FOV check. -/
theorem saveTimestampV2_accept (s : RtdState) (m : Md)
    (h : (saveTimestampV2 s m).2 = true) : ¬midFovFailure s m := by
  obtain ⟨s1, b, heq, hlen, eTag, eFov, eRois, eRow, eStart, eSize, eStep, eS0,
    eS1, eF0, eF1, eG, eRows, eA0, eA1, eR0, eR1, eSnr, hac, hrj, hwy⟩ :=
    saveTimestampBase_shape s m
  simp only [saveTimestampV2, heq] at h
  cases b
  · simp at h
  · obtain ⟨hd, hcnt, hi⟩ := hac rfl
    rw [if_neg (by simp)] at h
    simp only [saveTimestampChecks] at h
    split_ifs at h with c1 c2 c3 c4 c5 c6 c7 c8
    all_goals
      exact midFovFailure_intro s m
        ((not_ne_iff.mp c1).trans eTag)
        ((not_ne_iff.mp c2).trans eFov)
        hcnt
        ((not_ne_iff.mp fun hx => c3 (Or.inl hx)).trans eRois)
        ((not_ne_iff.mp fun hx => c3 (Or.inr (Or.inl hx))).trans eStart)
        ((not_ne_iff.mp fun hx => c3 (Or.inr (Or.inr (Or.inl hx)))).trans eSize)
        ((not_ne_iff.mp fun hx => c3 (Or.inr (Or.inr (Or.inr hx)))).trans eStep)
        (fun hx => c4 (by
          simp only [bufferSizesChangedV2, bufferSizesChanged, hlen, eTag, eFov,
            eRois, eRow, eStart, eSize, eStep, eS0, eS1, eF0, eF1, eG, eA0,
            eA1, eR0, eR1, eSnr]
          simpa [bufferSizesChangedV2, bufferSizesChanged] using hx))
        c5
        (eRow.symm.trans (not_ne_iff.mp c6))
        (by rw [← eRows]; exact c7)

/-- Auxiliary: when every mid-FOV check passes and the ROI start row
was already seen, V2 `saveTimestamp` accepts and keeps the incomplete
flag as it was. -/
theorem saveTimestampV2_seen_row (s : RtdState) (m : Md)
    (hd : ¬m.getDisableRtd)
    (hc : ¬((s.timestamps.length : ℤ) ≤ s.currentRoiIdx + 1))
    (h1 : m.getScanTableTag = s.expectedScanTableTag)
    (h2 : m.getRandomFovTag = s.expectedFovTag)
    (h3 : m.getFovNumRois = s.expectedNumRois)
    (h4 : (m.getFovStartRow, 0) = s.sensorFovStart)
    (h5 : (m.getFovNumRows, 640) = s.sensorFovSize)
    (h6 : (m.getBinningY, m.getBinningX) = s.sensorFovStep)
    (h7 : ¬bufferSizesChangedV2 s m)
    (h8 : ¬((m.getFovNumRows : ℤ) <
        (m.getRoiStartRow : ℤ) - (m.getFovStartRow : ℤ) + (m.getRoiNumRows : ℤ)))
    (h9 : s.fovStartRow = m.getFovStartRow)
    (h10 : m.getRoiStartRow ∈ s.roiStartRows) :
    (saveTimestampV2 s m).2 = true ∧
    (saveTimestampV2 s m).1.incompleteFov = s.incompleteFov := by
  obtain ⟨s1, b, heq, hlen, eTag, eFov, eRois, eRow, eStart, eSize, eStep, eS0,
    eS1, eF0, eF1, eG, eRows, eA0, eA1, eR0, eR1, eSnr, hac, hrj, hwy⟩ :=
    saveTimestampBase_shape s m
  simp only [saveTimestampV2, heq]
  cases b
  · exact absurd (hwy rfl) (fun hx => hx.elim hd hc)
  · obtain ⟨-, -, hi⟩ := hac rfl
    have h7' : ¬bufferSizesChangedV2 s1 m := by
      simp only [bufferSizesChangedV2, bufferSizesChanged, hlen, eTag, eFov,
        eRois, eRow, eStart, eSize, eStep, eS0, eS1, eF0, eF1, eG, eA0, eA1,
        eR0, eR1, eSnr]
      simpa [bufferSizesChangedV2, bufferSizesChanged] using h7
    rw [if_neg (by simp)]
    simp only [saveTimestampChecks]
    simp only [eTag, eFov, eRois, eRow, eStart, eSize, eStep, eRows]
    rw [if_neg (not_ne_iff.mpr h1), if_neg (not_ne_iff.mpr h2),
        if_neg (by simp [h3, h4, h5, h6]), if_neg h7', if_neg h8,
        if_neg (not_ne_iff.mpr h9), if_neg (fun hx => hx.1 h10),
        if_neg (not_not_intro h10)]
    exact ⟨rfl, hi⟩

/-- **C4** (corrected). If a mid-FOV check fails on an ROI — scan-table
or random-FOV tag differing from the first ROI, ROI counter past the
declared count, FOV geometry changed, ROI span past the FOV height, or
(amending the claim's "duplicate ROI-start-row", which the code accepts
silently) an unseen start row arriving once as many distinct start rows
as FOV rows were seen — then `saveTimestamp` rejects the ROI and marks
the FOV incomplete, the incomplete mark survives any further ROIs, the
whole-frame stage publishes no `FovSegment` for an incomplete FOV, and
the next first-roi reset clears the mark. -/
theorem midFov_failure_drops (s : RtdState) (m : Md) (hfail : midFovFailure s m) :
    (saveTimestampV2 s m).2 = false ∧
    (saveTimestampV2 s m).1.incompleteFov = true ∧
    (∀ s2 m2, s2.incompleteFov = true → (saveTimestampV2 s2 m2).1.incompleteFov = true) ∧
    (∀ s2, s2.incompleteFov = true → publishDecision s2 = false) ∧
    (resetState s m).incompleteFov = false := by
  have hrej : (saveTimestampV2 s m).2 = false := by
    by_cases hres : (saveTimestampV2 s m).2 = true
    · exact absurd hfail (saveTimestampV2_accept s m hres)
    · simpa using hres
  refine ⟨hrej, saveTimestampV2_reject s m hrej, ?_, ?_, ?_⟩
  · intro s2 m2 hinc
    obtain ⟨s1, b, heq, hlen, eTag, eFov, eRois, eRow, eStart, eSize, eStep, eS0,
      eS1, eF0, eF1, eG, eRows, eA0, eA1, eR0, eR1, eSnr, hac, hrj, hwy⟩ :=
      saveTimestampBase_shape s2 m2
    simp only [saveTimestampV2, heq]
    cases b
    · simpa using hrj rfl
    · obtain ⟨-, -, hi⟩ := hac rfl
      rw [if_neg (by simp)]
      simp only [saveTimestampChecks]
      split_ifs <;> first | rfl | exact hi.trans hinc
  · intro s2 hinc
    unfold publishDecision
    split_ifs <;> simp_all
  · unfold resetState
    split_ifs <;> simp

/-- **C4 witness**: the mid-FOV theorem at the scan-table-tag flip of
spec scenario 5 (tag 6 arrives while the FOV expected 5). -/
theorem midFov_failure_drops_witness :
    (saveTimestampV2 exS exMdTagFlip).2 = false :=
  (midFov_failure_drops exS exMdTagFlip (Or.inl (by decide))).1

/-- **C4 counterexample**: an ROI whose start row duplicates the first
ROI's is not dropped — `saveTimestamp` accepts it and the FOV stays
complete — refuting the claim's "a duplicate ROI-start-row arrives"
drop condition. -/
theorem saveTimestamp_duplicate_row_accepted :
    exMd.getRoiStartRow ∈ exS.roiStartRows ∧
    (saveTimestampV2 exS exMd).2 = true ∧
    (saveTimestampV2 exS exMd).1.incompleteFov = false := by
  have h := saveTimestampV2_seen_row exS exMd (by decide) (by decide) (by decide)
    (by decide) (by decide) (by decide) (by decide) (by decide)
    (by simp [bufferSizesChangedV2, bufferSizesChanged, exS, exMd, md16,
       Md.getFullImageHeight, Md.getFullImageWidth, Md.getBinningX, Md.getBinningY,
       Md.getFovStartRow, Md.getFovNumRows, Md.getFovNumRois,
       Md.getStripeModeEnabled])
    (by decide) (by decide) (by decide)
  exact ⟨by decide, h.1, h.2.trans rfl⟩

/-- **C5 witness**: the tap-rotation theorem at a 1×1 ROI with concrete
raw data, engine mode at pixel 0 component 0. -/
theorem tapRotation_modes_witness :
    (tapRotation [1, 2, 3, 0, 0, 0, 10, 20, 30, 0, 0, 0, 100, 200, 300, 0, 0, 0]
        [0, 0, 0] 0 1 1 3 true).getD 0 0 =
      ([1, 2, 3, 0, 0, 0, 10, 20, 30, 0, 0, 0, 100, 200, 300, 0, 0, 0] : List ℚ).getD 0 0 +
      ([1, 2, 3, 0, 0, 0, 10, 20, 30, 0, 0, 0, 100, 200, 300, 0, 0, 0] : List ℚ).getD 7 0 +
      ([1, 2, 3, 0, 0, 0, 10, 20, 30, 0, 0, 0, 100, 200, 300, 0, 0, 0] : List ℚ).getD 14 0 := by
  have h := (tapRotation_modes
      [1, 2, 3, 0, 0, 0, 10, 20, 30, 0, 0, 0, 100, 200, 300, 0, 0, 0]
      [1, 2, 3, 0, 0, 0] [0, 0, 0] 0 1 1 (by omega) (by simp) (by simp) (by simp)).1
      0 (by omega) 0 (by omega)
  simpa using h

end M30
